import Mathlib

/-!
Shallow embedding of the audio-driven lip-sync core of the Live2dRender
repository: the WAV decoder and the streaming RMS envelope trackers.

The repository contains two implementations of the WAV-decode-plus-RMS
logic: the standalone `LAppWavFileHandler` together with its top-level
`parseWav` helper (src/unnamed/part_001), and the `AudioAnalyser` class
(src/src/core/live2d/AudioAnalyser.ts).  Both are embedded here.

Modelling conventions:
- A JS `ArrayBuffer`/`DataView` is a `List Nat` of byte values.  A
  `DataView` read that would overrun the buffer throws a `RangeError` in
  JS; here that is an explicit `.error`/`.fault` outcome.  Reads that are
  performed only at offsets guarded to be in bounds by the surrounding
  code use total `...D` readers with default 0.
- JS numbers on the paths modelled here are exact (integers, or dyadic
  fractions produced by the sample normalizations); they are modelled as
  `Nat`/`Int`/`ℚ`.
- The stored loudness field `lastRms` always equals `Real.sqrt` of the
  mean of squares that produced it (or 0).  The state carries that
  radicand (`lastRmsSq`); the square root, a strictly monotone bijection
  on nonnegatives, is applied at the observation `getRms`.  All
  hold/reset/return claims transfer along this bijection.
-/

namespace Live2d

/-- A byte buffer: a JS `ArrayBuffer` as the list of its byte values. -/
abbrev Buf := List Nat

/-- `DataView.getUint8` at a provably in-bounds offset (default 0 is never
hit at the call sites, which are guarded by the surrounding code). -/
def getUint8D (buf : Buf) (i : Nat) : Nat := buf.getD i 0

/-- `DataView.getUint16(_, true)` (little endian), total variant. -/
def getUint16LED (buf : Buf) (i : Nat) : Nat :=
  getUint8D buf i + 256 * getUint8D buf (i + 1)

/-- `DataView.getUint32(_, true)` (little endian), total variant. -/
def getUint32LED (buf : Buf) (i : Nat) : Nat :=
  getUint8D buf i + 256 * getUint8D buf (i + 1) + 65536 * getUint8D buf (i + 2) +
    16777216 * getUint8D buf (i + 3)

/-- `DataView.getUint32(_, false)` (big endian), total variant. -/
def getUint32BED (buf : Buf) (i : Nat) : Nat :=
  16777216 * getUint8D buf i + 65536 * getUint8D buf (i + 1) + 256 * getUint8D buf (i + 2) +
    getUint8D buf (i + 3)

/-- `DataView.getUint16(_, true)` as a partial read: `none` models the JS
`RangeError` on an out-of-bounds access. -/
def getUint16LE (buf : Buf) (i : Nat) : Option Nat :=
  if i + 2 ≤ buf.length then some (getUint16LED buf i) else none

/-- `DataView.getUint32(_, true)` as a partial read. -/
def getUint32LE (buf : Buf) (i : Nat) : Option Nat :=
  if i + 4 ≤ buf.length then some (getUint32LED buf i) else none

/-- `DataView.getInt16(_, true)`: the unsigned read reinterpreted as a
two's-complement 16-bit integer. -/
def getInt16LED (buf : Buf) (i : Nat) : Int :=
  let u := getUint16LED buf i
  if 32768 ≤ u then (u : Int) - 65536 else (u : Int)

/-- `DataView.getInt32(_, true)`. -/
def getInt32LED (buf : Buf) (i : Nat) : Int :=
  let u := getUint32LED buf i
  if 2147483648 ≤ u then (u : Int) - 4294967296 else (u : Int)

/-- `readFourCC` (part_001 lines 9-16): the four bytes at `offset`, compared
against the ASCII codes of the four-character tags below. -/
def readFourCC (buf : Buf) (i : Nat) : Nat × Nat × Nat × Nat :=
  (getUint8D buf i, getUint8D buf (i + 1), getUint8D buf (i + 2), getUint8D buf (i + 3))

/-- ASCII bytes of the tag `RIFF`. -/
def riffTag : Nat × Nat × Nat × Nat := (82, 73, 70, 70)

/-- ASCII bytes of the tag `WAVE`. -/
def waveTag : Nat × Nat × Nat × Nat := (87, 65, 86, 69)

/-- ASCII bytes of the tag `fmt `. -/
def fmtTag : Nat × Nat × Nat × Nat := (102, 109, 116, 32)

/-- ASCII bytes of the tag `data`. -/
def dataTag : Nat × Nat × Nat × Nat := (100, 97, 116, 97)

/-- `Math.max(-1, Math.min(1, sample))` (part_001 line 85). -/
def clampSample (x : ℚ) : ℚ := max (-1) (min 1 x)

/-- One sample read of the decode loop of `parseWav` (part_001 lines 66-84).
The JS code advances a byte pointer `p` one sample at a time; at frame `i`,
channel `ch`, that pointer equals `dataOffset + (i*channels + ch) *
bytesPerSample`, which is how the call site below addresses samples.  The
24-bit branch tests `v & 0x800000` (bit 23; for `v < 2^24` that is
`2^23 ≤ v`) and then `v |= 0xff000000` reinterprets the 32-bit pattern as
the negative int32 `v - 2^24`. -/
def decodeSampleD (buf : Buf) (p : Nat) (bits : Nat) : ℚ :=
  if bits = 8 then
    clampSample ((((getUint8D buf p : Int) - 128 : Int) : ℚ) / 128)
  else if bits = 16 then
    clampSample ((getInt16LED buf p : ℚ) / 32768)
  else if bits = 24 then
    let u := getUint8D buf p + 256 * getUint8D buf (p + 1) + 65536 * getUint8D buf (p + 2)
    let v : Int := if 8388608 ≤ u then (u : Int) - 16777216 else (u : Int)
    clampSample ((v : ℚ) / 8388608)
  else
    clampSample ((getInt32LED buf p : ℚ) / 2147483648)

/-- The `ParsedWav` record of part_001 lines 3-7: sample rate, channel
count, and the per-channel normalized PCM data. -/
structure ParsedWav where
  sampleRate : Nat
  channels : Nat
  pcm : List (List ℚ)
deriving Repr, DecidableEq

/-- The chunk-walk loop of `parseWav` (part_001 lines 29-42): starting at
offset 12, read each chunk header (4-byte id, 4-byte little-endian size)
while a full header fits, remembering the payload offset and size of the
most recent `fmt ` and `data` chunks, and stepping over the payload plus
one pad byte when the size is odd.  `none` models the `-1` sentinel. -/
def scanChunks (buf : Buf) (offset : Nat)
    (fmtInfo dataInfo : Option (Nat × Nat)) : Option (Nat × Nat) × Option (Nat × Nat) :=
  if h : offset + 8 ≤ buf.length then
    let id := readFourCC buf offset
    let size := getUint32LED buf (offset + 4)
    let payload := offset + 8
    let fmtInfo' := if id = fmtTag then some (payload, size) else fmtInfo
    let dataInfo' := if id = dataTag then some (payload, size) else dataInfo
    scanChunks buf (payload + size + size % 2) fmtInfo' dataInfo'
  else
    (fmtInfo, dataInfo)
termination_by buf.length - offset
decreasing_by omega

/-- `parseWav` (part_001 lines 18-90).  `.ok none` is the JS `null` return,
`.ok (some _)` a successful decode, and `.error ()` a thrown `RangeError`
(possible only in the four fmt-field reads: the chunk walk is guarded, and
the sample reads stay below `dataOffset + available ≤ buf.length`).  The
JS code performs all four fmt-field reads (lines 47-50) before any of the
checks on them (lines 52-54), so a single joint match is faithful. -/
def parseWav (buf : Buf) : Except Unit (Option ParsedWav) :=
  if buf.length < 12 then .ok none
  else if readFourCC buf 0 ≠ riffTag then .ok none
  else if readFourCC buf 8 ≠ waveTag then .ok none
  else
    match scanChunks buf 12 none none with
    | (some (fmtOffset, fmtSize), some (dataOffset, dataSize)) =>
      if fmtOffset + min fmtSize 16 > buf.length then .ok none
      else
        match getUint16LE buf fmtOffset, getUint16LE buf (fmtOffset + 2),
            getUint32LE buf (fmtOffset + 4), getUint16LE buf (fmtOffset + 14) with
        | some audioFormat, some channels, some sampleRate, some bitsPerSample =>
          if audioFormat ≠ 1 then .ok none
          else if channels = 0 ∨ sampleRate = 0 then .ok none
          else if ¬(bitsPerSample = 8 ∨ bitsPerSample = 16 ∨ bitsPerSample = 24 ∨
              bitsPerSample = 32) then .ok none
          else
            let bytesPerSample := bitsPerSample / 8
            let frameBytes := channels * bytesPerSample
            let available := min dataSize (buf.length - dataOffset)
            let frames := available / frameBytes
            let pcm := (List.range channels).map fun ch =>
              (List.range frames).map fun i =>
                decodeSampleD buf (dataOffset + (i * channels + ch) * bytesPerSample)
                  bitsPerSample
            .ok (some { sampleRate := sampleRate, channels := channels, pcm := pcm })
        | _, _, _, _ => .error ()
    | _ => .ok none

/-- `Math.floor` of a nonnegative JS number as a `Nat`.  On the modelled
paths the argument is `elapsedSeconds * sampleRate ≥ 0`; for a negative
argument JS would produce a negative target, which the callers compare
against a cursor that is `≥ 0`, so clamping to 0 takes the same branch. -/
def ratFloorToNat (q : ℚ) : Nat := (⌊q⌋).toNat

/-- The inner sample loop of the RMS window (part_001 lines 150-154, and
identically AudioAnalyser.ts lines 115-119): sum of `data[i] * data[i]`
for `i` in `[lo, hi)`.  On decoder-produced audio every index is in
bounds; the default 0 of `getD` is never hit there. -/
def windowSumSq (data : List ℚ) (lo hi : Nat) : ℚ :=
  ((List.range (hi - lo)).map fun k => data.getD (lo + k) 0 * data.getD (lo + k) 0).sum

/-- The channel loop of the RMS window (part_001 lines 148-155 and
AudioAnalyser.ts lines 113-120): sum of squares over all channels. -/
def pooledSumSq (pcm : List (List ℚ)) (chCount lo hi : Nat) : ℚ :=
  ((List.range chCount).map fun ch => windowSumSq (pcm.getD ch []) lo hi).sum

/-- The `count` accumulator of the same loops: one increment per
channel-sample pair in the window. -/
def pooledCount (chCount lo hi : Nat) : Nat :=
  ((List.range chCount).map fun _ => hi - lo).sum

namespace LAppWavFileHandler

/-- The mutable fields of `LAppWavFileHandler` (part_001 lines 93-97).
`lastRmsSq` carries the square of the stored `lastRms` (see the header
comment); `inflight` abstracts the promise field to its presence. -/
structure State where
  parsed : Option ParsedWav
  sampleCursor : Nat
  timeSeconds : ℚ
  lastRmsSq : ℚ
  inflight : Bool
deriving Repr, DecidableEq

/-- `update` (part_001 lines 126-160).  Returns the new state and the JS
boolean return value.  `lastRms = Math.sqrt(sum / count)` is stored as the
radicand `sum / count` (and `0` where the code stores `0`). -/
def update (s : State) (dt : ℚ) : State × Bool :=
  match s.parsed with
  | none => ({ s with lastRmsSq := 0 }, false)
  | some wav =>
    let frames := (wav.pcm.headD []).length
    if frames = 0 then ({ s with lastRmsSq := 0 }, false)
    else
      let t := s.timeSeconds + dt
      let target := min frames (ratFloorToNat (t * wav.sampleRate))
      if target ≤ s.sampleCursor then
        ({ s with timeSeconds := t, lastRmsSq := 0 }, false)
      else
        let sum := pooledSumSq wav.pcm wav.channels s.sampleCursor target
        let count := pooledCount wav.channels s.sampleCursor target
        ({ s with timeSeconds := t, sampleCursor := target,
                  lastRmsSq := if count ≠ 0 then sum / count else 0 }, true)

/-- `getRms` (part_001 lines 162-164): the stored loudness, observed
through the square root (see the header comment on `lastRmsSq`). -/
noncomputable def getRms (s : State) : ℝ := Real.sqrt s.lastRmsSq

/-- Folding a sequence of `update` calls (one per animation frame). -/
def updateMany (s : State) (dts : List ℚ) : State :=
  dts.foldl (fun s dt => (update s dt).1) s

/-- The events that can touch an `LAppWavFileHandler` on the main-thread
task queue: the synchronous part of `start` (lines 108-113), the
resolution of a `start`'s fetch+decode with a buffer, the rejection of a
fetch, and a render-loop `update` call.  `resolveOk` covers both the
`.then` write `this.parsed = parseWav(buf)` and, when `parseWav` throws,
the `.catch` write `this.parsed = null` — see `parseOutcome`. -/
inductive Ev where
  | start
  | resolveOk (buf : Buf)
  | resolveErr
  | step (dt : ℚ)

/-- Net effect on `parsed` of a resolved fetch (part_001 lines 113-120):
the parse result, or `null` when `parseWav` threw (the assignment never
ran and the `.catch` nulls the field). -/
def parseOutcome (buf : Buf) : Option ParsedWav :=
  match parseWav buf with
  | .ok r => r
  | .error _ => none

/-- One event applied to the tracker state.  `start` is lines 108-113: it
synchronously zeroes the cursor, the clock and `lastRms`, clears `parsed`
and installs the new in-flight promise.  A resolution writes its outcome
unconditionally: the source compares nothing against the stored
`inflight` promise (which is only ever assigned, and nulled in
`.finally`), so no staleness check is modelled. -/
def applyEv (s : State) : Ev → State
  | .start =>
    { parsed := none, sampleCursor := 0, timeSeconds := 0, lastRmsSq := 0, inflight := true }
  | .resolveOk buf => { s with parsed := parseOutcome buf, inflight := false }
  | .resolveErr => { s with parsed := none, inflight := false }
  | .step dt => (update s dt).1

/-- A main-thread interleaving: events applied in order. -/
def runEvents (s : State) (es : List Ev) : State := es.foldl applyEv s

/-- The module-level singleton slot `s_instance` (part_001 line 1) plus an
allocation counter modelling the reference identity of `new
LAppWavFileHandler()`: each construction yields a fresh identity. -/
structure World where
  s_instance : Option Nat
  nextId : Nat
deriving Repr, DecidableEq

/-- `getInstance` (part_001 lines 99-102): construct the instance on first
use, then return the stored one. -/
def getInstance (w : World) : World × Nat :=
  match w.s_instance with
  | some h => (w, h)
  | none => ({ s_instance := some w.nextId, nextId := w.nextId + 1 }, w.nextId)

/-- `releaseInstance` (part_001 lines 104-106). -/
def releaseInstance (w : World) : World := { w with s_instance := none }

/-- Observation helper: the identities returned by `n` successive
`getInstance` calls starting from `w`. -/
def getInstanceCalls (w : World) : Nat → List Nat
  | 0 => []
  | n + 1 => (getInstance w).2 :: getInstanceCalls (getInstance w).1 n

end LAppWavFileHandler

namespace AudioAnalyser

/-- The fields of `AudioAnalyser` (AudioAnalyser.ts lines 8-13), with
`_lastRmsSq` carrying the square of the stored `_lastRms` as in the
header comment. -/
structure State where
  _pcmData : Option (List (List ℚ))
  _sampleRate : Nat
  _channelCount : Nat
  _lastRmsSq : ℚ
  _sampleOffset : Nat
  _userTimeSeconds : ℚ
deriving Repr, DecidableEq

/-- The state `AudioAnalyser` starts in (field initializers, lines 8-13). -/
def initial : State :=
  { _pcmData := none, _sampleRate := 44100, _channelCount := 1,
    _lastRmsSq := 0, _sampleOffset := 0, _userTimeSeconds := 0 }

/-- Outcome of a call into `AudioAnalyser.parseWav`: a normal boolean
return, a thrown `RangeError` (caught by `load`, which then returns
false), or the non-terminating fill loop that JS runs into when
`_channelCount = 0` and the `data` chunk is nonempty (`samplesPerChannel`
is `Infinity`). -/
inductive AResult where
  | done (b : Bool)
  | fault
  | hang
deriving Repr, DecidableEq

/-- The `data`-chunk branch of `AudioAnalyser.parseWav` (lines 56-79).
`payload` is the chunk payload offset, `size` the declared chunk size.
JS computes `samplesPerChannel = (size/2) / _channelCount` in floating
point: a fractional value makes `new Float32Array(samplesPerChannel)`
throw (after `_pcmData` was already replaced by the hole-filled
`new Array(_channelCount)`, modelled as empty channel lists); with
`_channelCount = 0` it is `NaN` (empty data: zero-iteration loop, returns
true) or `Infinity` (nonempty data: the fill loop never terminates).  A
read past the buffer throws mid-fill, leaving the already-decoded prefix
written and the rest of the freshly allocated arrays at 0. -/
def dataChunk (s : State) (buf : Buf) (payload size : Nat) : State × AResult :=
  if s._channelCount = 0 then
    if size = 0 then
      ({ s with _pcmData := some [], _sampleOffset := 0, _userTimeSeconds := 0,
                _lastRmsSq := 0 }, .done true)
    else
      ({ s with _pcmData := some [] }, .hang)
  else if ¬(2 * s._channelCount ∣ size) then
    ({ s with _pcmData := some (List.replicate s._channelCount []) }, .fault)
  else
    let n := size / (2 * s._channelCount)
    if payload + 2 * (n * s._channelCount) ≤ buf.length then
      let pcm := (List.range s._channelCount).map fun c =>
        (List.range n).map fun i =>
          (getInt16LED buf (payload + 2 * (i * s._channelCount + c)) : ℚ) / 32768
      ({ s with _pcmData := some pcm, _sampleOffset := 0, _userTimeSeconds := 0,
                _lastRmsSq := 0 }, .done true)
    else
      let completed := (buf.length - payload) / 2
      let pcm := (List.range s._channelCount).map fun c =>
        (List.range n).map fun i =>
          if i * s._channelCount + c < completed then
            (getInt16LED buf (payload + 2 * (i * s._channelCount + c)) : ℚ) / 32768
          else 0
      ({ s with _pcmData := some pcm }, .fault)

/-- The chunk walk of `AudioAnalyser.parseWav` (lines 41-82):
`while (offset < byteLength)`, reading a big-endian id and little-endian
size; the `fmt ` branch mutates `_channelCount` and `_sampleRate` in
place between bound-checked reads and returns false on a non-PCM format
code or a bit depth other than 16; the `data` branch is `dataChunk`;
other chunks are skipped with `offset += 8 + chunkSize` (no pad byte). -/
def parseChunks (s : State) (buf : Buf) (offset : Nat) : State × AResult :=
  if _h : offset < buf.length then
    if offset + 8 ≤ buf.length then
      let chunkId := getUint32BED buf offset
      let chunkSize := getUint32LED buf (offset + 4)
      let payload := offset + 8
      if chunkId = 0x666d7420 then
        if payload + 2 ≤ buf.length then
          if getUint16LED buf payload ≠ 1 then (s, .done false)
          else if payload + 4 ≤ buf.length then
            let s1 := { s with _channelCount := getUint16LED buf (payload + 2) }
            if payload + 8 ≤ buf.length then
              let s2 := { s1 with _sampleRate := getUint32LED buf (payload + 4) }
              if payload + 16 ≤ buf.length then
                if getUint16LED buf (payload + 14) ≠ 16 then (s2, .done false)
                else parseChunks s2 buf (payload + chunkSize)
              else (s2, .fault)
            else (s1, .fault)
          else (s, .fault)
        else (s, .fault)
      else if chunkId = 0x64617461 then
        dataChunk s buf payload chunkSize
      else
        parseChunks s buf (payload + chunkSize)
    else (s, .fault)
  else (s, .done false)
termination_by buf.length - offset
decreasing_by all_goals omega

/-- `AudioAnalyser.parseWav` (lines 34-85).  The header reads
`getUint32(0, false)` and `getUint32(8, false)` throw on buffers shorter
than 4 resp. 12 bytes (there is no length check). -/
def parseWav (s : State) (buf : Buf) : State × AResult :=
  if buf.length < 4 then (s, .fault)
  else if getUint32BED buf 0 ≠ 0x52494646 then (s, .done false)
  else if buf.length < 12 then (s, .fault)
  else if getUint32BED buf 8 ≠ 0x57415645 then (s, .done false)
  else parseChunks s buf 12

/-- `AudioAnalyser.load` (lines 19-28) at its resolution point: `none`
models a failed fetch (the `catch` returns false and touches no state);
`some buf` runs `parseWav`, whose thrown `RangeError` is also caught and
reported as false.  The second component is the returned boolean, or
`none` for the non-terminating `hang` outcome.  The part of `load` before
its first `await` is empty: a call to `load` mutates nothing
synchronously and resets nothing. -/
def load (s : State) (buf : Option Buf) : State × Option Bool :=
  match buf with
  | none => (s, some false)
  | some b =>
    match parseWav s b with
    | (s1, .done r) => (s1, some r)
    | (s1, .fault) => (s1, some false)
    | (s1, .hang) => (s1, none)

/-- `AudioAnalyser.update` (lines 92-131).  Returns the new state and the
returned RMS (as its square, see the header comment): 0 when no PCM data
is loaded (state untouched, the clock is not even advanced), otherwise
the held or freshly computed `_lastRms`.  Line 99 indexes `_pcmData[0]`
without a guard; decoder-produced audio always has at least one channel,
and `headD []` models the in-bounds case faithfully. -/
def update (s : State) (dt : ℚ) : State × ℚ :=
  match s._pcmData with
  | none => (s, 0)
  | some pcm =>
    let t := s._userTimeSeconds + dt
    let goal0 := ratFloorToNat (t * s._sampleRate)
    let maxOffset := (pcm.headD []).length
    let goalOffset := if goal0 > maxOffset then maxOffset else goal0
    if s._sampleOffset ≥ goalOffset then
      ({ s with _userTimeSeconds := t }, s._lastRmsSq)
    else
      let sum := pooledSumSq pcm s._channelCount s._sampleOffset goalOffset
      let count := pooledCount s._channelCount s._sampleOffset goalOffset
      let rmsSq := if count > 0 then sum / count else 0
      ({ s with _userTimeSeconds := t, _sampleOffset := goalOffset, _lastRmsSq := rmsSq },
        rmsSq)

/-- `getRms` (lines 133-135), observed through the square root. -/
noncomputable def getRms (s : State) : ℝ := Real.sqrt s._lastRmsSq

/-- The frame count of the loaded audio as `update` sees it
(`_pcmData[0].length`), or 0 when nothing is loaded. -/
def framesOf (s : State) : Nat :=
  match s._pcmData with
  | none => 0
  | some pcm => (pcm.headD []).length

/-- Folding a sequence of `update` calls. -/
def updateMany (s : State) (dts : List ℚ) : State :=
  dts.foldl (fun s dt => (update s dt).1) s

end AudioAnalyser

/-! ### Well-formed WAV buffers

The round-trip claim quantifies over well-formed PCM WAV buffers; spec
§4.1 and §8.1 describe them as a RIFF/WAVE container holding a 16-byte
`fmt ` chunk with format code 1 and one `data` chunk of interleaved
integer samples.  `mkWav` constructs exactly these buffers, and
`normSample` is the normalization the claim states per bit depth. -/

/-- A value as a 2-byte little-endian field. -/
def u16Bytes (v : Nat) : Buf := [v % 256, v / 256 % 256]

/-- A value as a 4-byte little-endian field. -/
def u32Bytes (v : Nat) : Buf :=
  [v % 256, v / 256 % 256, v / 65536 % 256, v / 16777216 % 256]

/-- A stored integer sample as its two's-complement little-endian bytes
(`bits/8` of them). -/
def sampleBytes (bits : Nat) (v : Int) : Buf :=
  (List.range (bits / 8)).map fun j => (v % (2 ^ bits : Int)).toNat / 256 ^ j % 256

/-- The admissible stored values per bit depth: a raw byte for the
unsigned 8-bit encoding, a two's-complement value otherwise. -/
def sampleInRange (bits : Nat) (v : Int) : Prop :=
  if bits = 8 then 0 ≤ v ∧ v < 256
  else -(2 ^ (bits - 1) : Int) ≤ v ∧ v < (2 ^ (bits - 1) : Int)

/-- A well-formed PCM WAV buffer (spec §4.1): `RIFF` size `WAVE`, a
16-byte `fmt ` chunk (format code 1, channel count, sample rate, byte
rate, block align, bits per sample), then a `data` chunk of
`frames × channels` interleaved samples, `sample ch i` being the stored
integer for channel `ch` at frame `i`. -/
def mkWav (rate channels bits frames : Nat) (sample : Nat → Nat → Int) : Buf :=
  let bytesPerSample := bits / 8
  let dataSize := frames * channels * bytesPerSample
  let dataBytes := (List.range frames).flatMap fun i =>
    (List.range channels).flatMap fun ch => sampleBytes bits (sample ch i)
  [82, 73, 70, 70] ++ u32Bytes (36 + dataSize) ++ [87, 65, 86, 69] ++
    [102, 109, 116, 32] ++ u32Bytes 16 ++
    u16Bytes 1 ++ u16Bytes channels ++ u32Bytes rate ++
    u32Bytes (rate * channels * bytesPerSample) ++ u16Bytes (channels * bytesPerSample) ++
    u16Bytes bits ++
    [100, 97, 116, 97] ++ u32Bytes dataSize ++ dataBytes

/-- The normalization the round-trip claim states for each depth:
`(byte-128)/128`, `int16/32768`, `int24/8388608`, `int32/2147483648`. -/
def normSample (bits : Nat) (v : Int) : ℚ :=
  if bits = 8 then ((v : ℚ) - 128) / 128
  else if bits = 16 then (v : ℚ) / 32768
  else if bits = 24 then (v : ℚ) / 8388608
  else (v : ℚ) / 2147483648

/-! ### Concrete buffers used as test inputs -/

/-- A minimal valid WAV: 16-bit PCM, mono, 8000 Hz, one frame holding the
stored sample `-32768` (bytes `0, 128`). -/
def wav16Mono : Buf :=
  [82, 73, 70, 70, 38, 0, 0, 0, 87, 65, 86, 69,
   102, 109, 116, 32, 16, 0, 0, 0, 1, 0, 1, 0, 64, 31, 0, 0, 128, 62, 0, 0, 2, 0, 16, 0,
   100, 97, 116, 97, 2, 0, 0, 0, 0, 128]

/-- `wav16Mono` with the `data` chunk declaring 100 bytes while only 2
bytes actually remain: a truncated-data buffer. -/
def truncWav : Buf :=
  [82, 73, 70, 70, 38, 0, 0, 0, 87, 65, 86, 69,
   102, 109, 116, 32, 16, 0, 0, 0, 1, 0, 1, 0, 64, 31, 0, 0, 128, 62, 0, 0, 2, 0, 16, 0,
   100, 97, 116, 97, 100, 0, 0, 0, 0, 128]

/-- `wav16Mono` with the fmt sample-rate field set to 0. -/
def rate0Wav : Buf :=
  [82, 73, 70, 70, 38, 0, 0, 0, 87, 65, 86, 69,
   102, 109, 116, 32, 16, 0, 0, 0, 1, 0, 1, 0, 0, 0, 0, 0, 128, 62, 0, 0, 2, 0, 16, 0,
   100, 97, 116, 97, 2, 0, 0, 0, 0, 128]

/-- A RIFF/WAVE buffer whose single `fmt ` chunk declares format code 1,
channel count 2, sample rate 4000 and the unsupported bit depth 12. -/
def badFmtWav : Buf :=
  [82, 73, 70, 70, 28, 0, 0, 0, 87, 65, 86, 69,
   102, 109, 116, 32, 16, 0, 0, 0, 1, 0, 2, 0, 160, 15, 0, 0, 0, 0, 0, 0, 0, 0, 12, 0]

/-- A minimal valid 8-bit WAV: PCM, mono, 8000 Hz, one frame holding the
stored byte `200`; equal to `mkWav 8000 1 8 1 (fun _ _ => 200)`. -/
def wav8Mono : Buf :=
  [82, 73, 70, 70, 37, 0, 0, 0, 87, 65, 86, 69,
   102, 109, 116, 32, 16, 0, 0, 0, 1, 0, 1, 0, 64, 31, 0, 0, 64, 31, 0, 0, 1, 0, 8, 0,
   100, 97, 116, 97, 1, 0, 0, 0, 200]

end Live2d

open Live2d

/-! ### Helper lemmas -/

/-- List-level sums over `List.range` agree with `Finset.range` sums. -/
theorem sum_map_range (f : Nat → ℚ) (n : Nat) :
    ((List.range n).map f).sum = ∑ i ∈ Finset.range n, f i := by
  induction n with
  | zero => simp
  | succ n ih => simp [List.range_succ, Finset.sum_range_succ, ih]

/-- `update` never changes which audio is loaded. -/
theorem LApp_update_parsed (s : LAppWavFileHandler.State) (dt : ℚ) :
    ((LAppWavFileHandler.update s dt).1).parsed = s.parsed := by
  rcases hp : s.parsed with _ | wav <;>
    · simp only [LAppWavFileHandler.update, hp]
      try split_ifs <;> rfl

/-- `update` never decreases the cursor. -/
theorem LApp_update_cursor_mono (s : LAppWavFileHandler.State) (dt : ℚ) :
    s.sampleCursor ≤ ((LAppWavFileHandler.update s dt).1).sampleCursor := by
  rcases hp : s.parsed with _ | wav
  · simp [LAppWavFileHandler.update, hp]
  · simp only [LAppWavFileHandler.update, hp]
    split_ifs with h1 h2 h3 <;> dsimp only <;> omega

/-- `update` keeps the cursor below the frame count of the loaded audio. -/
theorem LApp_update_cursor_le (s : LAppWavFileHandler.State) (wav : ParsedWav) (dt : ℚ)
    (hp : s.parsed = some wav)
    (hb : s.sampleCursor ≤ (wav.pcm.headD []).length) :
    ((LAppWavFileHandler.update s dt).1).sampleCursor ≤ (wav.pcm.headD []).length := by
  simp only [LAppWavFileHandler.update, hp]
  split_ifs with h1 h2 h3 <;> dsimp only <;> omega

/-- Concrete evaluation: `parseWav` decodes `wav16Mono`. -/
theorem wav16Mono_parse :
    parseWav wav16Mono = .ok (some { sampleRate := 8000, channels := 1, pcm := [[-1]] }) := by
  simp +decide [parseWav, scanChunks, wav16Mono, readFourCC, riffTag, waveTag, fmtTag, dataTag,
    getUint8D, getUint16LED, getUint32LED, getUint16LE, getUint32LE, getInt16LED,
    decodeSampleD, clampSample, List.getD, List.range_succ, max_def, min_def]
  norm_num

/-! ### Claim theorems -/

/-- C2 (amended): `LAppWavFileHandler.start` installs no staleness check —
every fetch resolution writes its own outcome into `parsed`
unconditionally, so after any event sequence the decoded-audio state
reflects whichever resolution ran last, not necessarily the latest
`start`. -/
theorem C2_last_resolution_wins (s : LAppWavFileHandler.State)
    (es : List LAppWavFileHandler.Ev) (buf : Buf) :
    (LAppWavFileHandler.runEvents s (es ++ [LAppWavFileHandler.Ev.resolveOk buf])).parsed =
      LAppWavFileHandler.parseOutcome buf ∧
    (LAppWavFileHandler.runEvents s (es ++ [LAppWavFileHandler.Ev.resolveErr])).parsed =
      none := by
  constructor <;>
    simp [LAppWavFileHandler.runEvents, List.foldl_append, LAppWavFileHandler.applyEv]

/-- C2 counterexample: `start(A); start(B)`; B's fetch fails and resolves
first; A's stale decode resolves afterwards and repopulates `parsed` with
A's audio — although the latest start was B and B's outcome was absent
audio.  The claim says A's late resolution must never be written. -/
theorem C2_counterexample :
    (LAppWavFileHandler.runEvents
      { parsed := none, sampleCursor := 0, timeSeconds := 0, lastRmsSq := 0, inflight := false }
      [.start, .start, .resolveErr, .resolveOk wav16Mono]).parsed =
      some { sampleRate := 8000, channels := 1, pcm := [[-1]] } := by
  simp [LAppWavFileHandler.runEvents, LAppWavFileHandler.applyEv,
    LAppWavFileHandler.parseOutcome, wav16Mono_parse]

/-- C10: `getInstance` creates the instance on first call, returns the
identical stored instance (and leaves the world unchanged) on every call
while one exists — so all call sites share one tracker's state — and
`releaseInstance` resets the slot. -/
theorem C10_singleton_sharing :
    (∀ w : LAppWavFileHandler.World, w.s_instance = none →
      (LAppWavFileHandler.getInstance w).1.s_instance =
        some (LAppWavFileHandler.getInstance w).2) ∧
    (∀ (w : LAppWavFileHandler.World) (h : Nat), w.s_instance = some h →
      LAppWavFileHandler.getInstance w = (w, h)) ∧
    (∀ (w : LAppWavFileHandler.World) (n : Nat),
      LAppWavFileHandler.getInstanceCalls (LAppWavFileHandler.getInstance w).1 n =
        List.replicate n (LAppWavFileHandler.getInstance w).2) ∧
    (∀ w : LAppWavFileHandler.World,
      (LAppWavFileHandler.releaseInstance w).s_instance = none) := by
  have stable : ∀ w : LAppWavFileHandler.World,
      (LAppWavFileHandler.getInstance w).1.s_instance =
        some (LAppWavFileHandler.getInstance w).2 := by
    intro w
    rcases hw : w.s_instance with _ | h <;> simp [LAppWavFileHandler.getInstance, hw]
  have calls : ∀ (n : Nat) (w : LAppWavFileHandler.World) (h : Nat), w.s_instance = some h →
      LAppWavFileHandler.getInstanceCalls w n = List.replicate n h := by
    intro n
    induction n with
    | zero => intro w h _; rfl
    | succ n ih =>
      intro w h hw
      simp [LAppWavFileHandler.getInstanceCalls, LAppWavFileHandler.getInstance, hw,
        ih w h hw, List.replicate_succ]
  refine ⟨fun w _ => stable w, ?_, ?_, fun w => rfl⟩
  · intro w h hw
    simp [LAppWavFileHandler.getInstance, hw]
  · intro w n
    exact calls n _ _ (stable w)

/-- C7 (amended, for `LAppWavFileHandler`): `start` synchronously resets
the cursor, the clock and `lastRms` to 0 and clears the decoded audio
before any asynchronous work; while no audio is present — before a decode
resolves, and permanently after a failed fetch or decode — every `update`
reports silence (`lastRms` zeroed, `getRms` reading 0, returning false),
the absent state persists under any sequence of calls, and a failed
resolution leaves the audio absent. -/
theorem C7_silence_while_loading :
    (∀ s : LAppWavFileHandler.State,
      LAppWavFileHandler.applyEv s .start =
        { parsed := none, sampleCursor := 0, timeSeconds := 0, lastRmsSq := 0,
          inflight := true }) ∧
    (∀ (s : LAppWavFileHandler.State) (dt : ℚ), s.parsed = none →
      LAppWavFileHandler.update s dt = ({ s with lastRmsSq := 0 }, false) ∧
      LAppWavFileHandler.getRms (LAppWavFileHandler.update s dt).1 = 0) ∧
    (∀ (s : LAppWavFileHandler.State) (dts : List ℚ), s.parsed = none →
      (LAppWavFileHandler.updateMany s dts).parsed = none) ∧
    (∀ s : LAppWavFileHandler.State,
      (LAppWavFileHandler.applyEv s .resolveErr).parsed = none) := by
  have hstep : ∀ (s : LAppWavFileHandler.State) (dt : ℚ), s.parsed = none →
      LAppWavFileHandler.update s dt = ({ s with lastRmsSq := 0 }, false) := by
    intro s dt hp
    simp [LAppWavFileHandler.update, hp]
  refine ⟨fun s => rfl, fun s dt hp => ⟨hstep s dt hp, ?_⟩, ?_, fun s => rfl⟩
  · rw [hstep s dt hp]
    simp [LAppWavFileHandler.getRms]
  · intro s dts hp
    induction dts generalizing s with
    | nil => exact hp
    | cons dt dts ih =>
      simp only [LAppWavFileHandler.updateMany, List.foldl_cons]
      exact ih _ (by rw [LApp_update_parsed]; exact hp)

/-- C7 witness: with no audio loaded, one `update` zeroes the loudness and
reports false, and the observed loudness is 0. -/
theorem C7_witness :
    LAppWavFileHandler.update
        { parsed := none, sampleCursor := 3, timeSeconds := 5, lastRmsSq := 7,
          inflight := false } 2 =
      ({ parsed := none, sampleCursor := 3, timeSeconds := 5, lastRmsSq := 0,
         inflight := false }, false) ∧
    LAppWavFileHandler.getRms
      (LAppWavFileHandler.update
        { parsed := none, sampleCursor := 3, timeSeconds := 5, lastRmsSq := 7,
          inflight := false } 2).1 = 0 :=
  C7_silence_while_loading.2.1
    { parsed := none, sampleCursor := 3, timeSeconds := 5, lastRmsSq := 7,
      inflight := false } 2 rfl

/-- C7 counterexample: `AudioAnalyser.load` resets nothing synchronously
(its body before the first `await` is empty) and a failed fetch leaves
previously-loaded audio untouched, so the very next `update` returns the
old audio's loudness (here 1), not the 0 the claim requires after a
failure. -/
theorem C7_counterexample :
    AudioAnalyser.load
        { _pcmData := some [[1, 1]], _sampleRate := 1, _channelCount := 1,
          _lastRmsSq := 0, _sampleOffset := 0, _userTimeSeconds := 0 } none =
      ({ _pcmData := some [[1, 1]], _sampleRate := 1, _channelCount := 1,
         _lastRmsSq := 0, _sampleOffset := 0, _userTimeSeconds := 0 }, some false) ∧
    (AudioAnalyser.update
        { _pcmData := some [[1, 1]], _sampleRate := 1, _channelCount := 1,
          _lastRmsSq := 0, _sampleOffset := 0, _userTimeSeconds := 0 } 1).2 = 1 ∧
    (1 : ℚ) ≠ 0 := by
  refine ⟨rfl, ?_, by norm_num⟩
  norm_num [AudioAnalyser.update, ratFloorToNat, pooledSumSq, pooledCount, windowSumSq,
    List.range_succ, List.getD]

/-- `AudioAnalyser.update` never changes which audio is loaded. -/
theorem A_update_pcm (s : AudioAnalyser.State) (dt : ℚ) :
    ((AudioAnalyser.update s dt).1)._pcmData = s._pcmData := by
  rcases hp : s._pcmData with _ | pcm <;>
    · simp only [AudioAnalyser.update, hp]
      try split_ifs <;> rfl

/-- `AudioAnalyser.update` never decreases the sample offset. -/
theorem A_update_offset_mono (s : AudioAnalyser.State) (dt : ℚ) :
    s._sampleOffset ≤ ((AudioAnalyser.update s dt).1)._sampleOffset := by
  rcases hp : s._pcmData with _ | pcm
  · simp [AudioAnalyser.update, hp]
  · simp only [AudioAnalyser.update, hp]
    split_ifs <;> dsimp only <;> omega

/-- `AudioAnalyser.update` keeps the offset below the frame count. -/
theorem A_update_offset_le (s : AudioAnalyser.State) (pcm : List (List ℚ)) (dt : ℚ)
    (hp : s._pcmData = some pcm)
    (hb : s._sampleOffset ≤ (pcm.headD []).length) :
    ((AudioAnalyser.update s dt).1)._sampleOffset ≤ (pcm.headD []).length := by
  simp only [AudioAnalyser.update, hp]
  split_ifs <;> dsimp only <;> omega

/-- Invariant of a run of `LAppWavFileHandler.update` calls: the loaded
audio is unchanged, the cursor does not decrease and stays below the
frame count. -/
theorem LApp_updateMany_inv (dts : List ℚ) (s : LAppWavFileHandler.State) (wav : ParsedWav)
    (hp : s.parsed = some wav)
    (hb : s.sampleCursor ≤ (wav.pcm.headD []).length) :
    s.sampleCursor ≤ (LAppWavFileHandler.updateMany s dts).sampleCursor ∧
    (LAppWavFileHandler.updateMany s dts).sampleCursor ≤ (wav.pcm.headD []).length ∧
    (LAppWavFileHandler.updateMany s dts).parsed = some wav := by
  induction dts generalizing s with
  | nil => exact ⟨le_refl _, hb, hp⟩
  | cons dt dts ih =>
    simp only [LAppWavFileHandler.updateMany, List.foldl_cons] at ih ⊢
    have hp1 : ((LAppWavFileHandler.update s dt).1).parsed = some wav := by
      rw [LApp_update_parsed]; exact hp
    obtain ⟨ha, hbb, hc⟩ := ih _ hp1 (LApp_update_cursor_le s wav dt hp hb)
    exact ⟨le_trans (LApp_update_cursor_mono s dt) ha, hbb, hc⟩

/-- Invariant of a run of `AudioAnalyser.update` calls. -/
theorem A_updateMany_inv (dts : List ℚ) (s : AudioAnalyser.State) (pcm : List (List ℚ))
    (hp : s._pcmData = some pcm)
    (hb : s._sampleOffset ≤ (pcm.headD []).length) :
    s._sampleOffset ≤ (AudioAnalyser.updateMany s dts)._sampleOffset ∧
    (AudioAnalyser.updateMany s dts)._sampleOffset ≤ (pcm.headD []).length ∧
    (AudioAnalyser.updateMany s dts)._pcmData = some pcm := by
  induction dts generalizing s with
  | nil => exact ⟨le_refl _, hb, hp⟩
  | cons dt dts ih =>
    simp only [AudioAnalyser.updateMany, List.foldl_cons] at ih ⊢
    have hp1 : ((AudioAnalyser.update s dt).1)._pcmData = some pcm := by
      rw [A_update_pcm]; exact hp
    obtain ⟨ha, hbb, hc⟩ := ih _ hp1 (A_update_offset_le s pcm dt hp hb)
    exact ⟨le_trans (A_update_offset_mono s dt) ha, hbb, hc⟩

/-- C5: for every loaded audio and every finite sequence of nonnegative
`advance` deltas, the cursor is non-decreasing across the sequence and
stays at or below the frame count after every call — in both the
`LAppWavFileHandler` and the `AudioAnalyser` tracker. -/
theorem C5_monotone_bounded_cursor :
    (∀ (s : LAppWavFileHandler.State) (wav : ParsedWav) (dts pre post : List ℚ),
      s.parsed = some wav → (∀ dt ∈ dts, 0 ≤ dt) →
      s.sampleCursor ≤ (wav.pcm.headD []).length → dts = pre ++ post →
      (LAppWavFileHandler.updateMany s pre).sampleCursor ≤
        (LAppWavFileHandler.updateMany s dts).sampleCursor ∧
      (LAppWavFileHandler.updateMany s dts).sampleCursor ≤ (wav.pcm.headD []).length) ∧
    (∀ (s : AudioAnalyser.State) (pcm : List (List ℚ)) (dts pre post : List ℚ),
      s._pcmData = some pcm → (∀ dt ∈ dts, 0 ≤ dt) →
      s._sampleOffset ≤ (pcm.headD []).length → dts = pre ++ post →
      (AudioAnalyser.updateMany s pre)._sampleOffset ≤
        (AudioAnalyser.updateMany s dts)._sampleOffset ∧
      (AudioAnalyser.updateMany s dts)._sampleOffset ≤ (pcm.headD []).length) := by
  constructor
  · intro s wav dts pre post hp _ hb hsplit
    subst hsplit
    obtain ⟨h1, h2, h3⟩ := LApp_updateMany_inv pre s wav hp hb
    have happ : LAppWavFileHandler.updateMany s (pre ++ post) =
        LAppWavFileHandler.updateMany (LAppWavFileHandler.updateMany s pre) post := by
      simp [LAppWavFileHandler.updateMany, List.foldl_append]
    obtain ⟨h4, h5, _⟩ := LApp_updateMany_inv post _ wav h3 h2
    rw [happ]
    exact ⟨h4, h5⟩
  · intro s pcm dts pre post hp _ hb hsplit
    subst hsplit
    obtain ⟨h1, h2, h3⟩ := A_updateMany_inv pre s pcm hp hb
    have happ : AudioAnalyser.updateMany s (pre ++ post) =
        AudioAnalyser.updateMany (AudioAnalyser.updateMany s pre) post := by
      simp [AudioAnalyser.updateMany, List.foldl_append]
    obtain ⟨h4, h5, _⟩ := A_updateMany_inv post _ pcm h3 h2
    rw [happ]
    exact ⟨h4, h5⟩

/-- C5 witness: a two-delta run on a two-frame mono clip, split after the
first call. -/
theorem C5_witness :
    (LAppWavFileHandler.updateMany
        { parsed := some { sampleRate := 1, channels := 1, pcm := [[1, 1]] },
          sampleCursor := 0, timeSeconds := 0, lastRmsSq := 0, inflight := false }
        [1]).sampleCursor ≤
      (LAppWavFileHandler.updateMany
        { parsed := some { sampleRate := 1, channels := 1, pcm := [[1, 1]] },
          sampleCursor := 0, timeSeconds := 0, lastRmsSq := 0, inflight := false }
        [1, 1]).sampleCursor ∧
    (LAppWavFileHandler.updateMany
        { parsed := some { sampleRate := 1, channels := 1, pcm := [[1, 1]] },
          sampleCursor := 0, timeSeconds := 0, lastRmsSq := 0, inflight := false }
        [1, 1]).sampleCursor ≤
      (({ sampleRate := 1, channels := 1, pcm := [[1, 1]] } : ParsedWav).pcm.headD []).length :=
  C5_monotone_bounded_cursor.1
    { parsed := some { sampleRate := 1, channels := 1, pcm := [[1, 1]] },
      sampleCursor := 0, timeSeconds := 0, lastRmsSq := 0, inflight := false }
    { sampleRate := 1, channels := 1, pcm := [[1, 1]] } [1, 1] [1] [1] rfl
    (by intro dt hdt; fin_cases hdt <;> norm_num) (by norm_num) rfl

/-- On an idle frame (clamped target at or below the offset),
`AudioAnalyser.update` only advances the clock and returns the held
loudness. -/
theorem A_update_hold (s : AudioAnalyser.State) (pcm : List (List ℚ)) (dt : ℚ)
    (hp : s._pcmData = some pcm)
    (hgoal : min (ratFloorToNat ((s._userTimeSeconds + dt) * s._sampleRate))
        ((pcm.headD []).length) ≤ s._sampleOffset) :
    AudioAnalyser.update s dt =
      ({ s with _userTimeSeconds := s._userTimeSeconds + dt }, s._lastRmsSq) := by
  simp only [AudioAnalyser.update, hp]
  rw [if_pos]
  have hmin : (if ratFloorToNat ((s._userTimeSeconds + dt) * s._sampleRate) >
        (pcm.headD []).length then (pcm.headD []).length
      else ratFloorToNat ((s._userTimeSeconds + dt) * s._sampleRate)) =
      min (ratFloorToNat ((s._userTimeSeconds + dt) * s._sampleRate))
        ((pcm.headD []).length) := by
    split_ifs <;> omega
  rw [hmin]
  exact hgoal

/-- Once the offset sits at the frame count, `AudioAnalyser.update` holds
every observable: the loudness, the offset and the audio are unchanged
by any further call. -/
theorem A_update_terminal (s : AudioAnalyser.State) (dt : ℚ)
    (hoff : s._sampleOffset = AudioAnalyser.framesOf s) :
    ((AudioAnalyser.update s dt).1)._lastRmsSq = s._lastRmsSq ∧
    ((AudioAnalyser.update s dt).1)._sampleOffset = s._sampleOffset ∧
    ((AudioAnalyser.update s dt).1)._pcmData = s._pcmData := by
  rcases hp : s._pcmData with _ | pcm
  · simp [AudioAnalyser.update, hp]
  · have hoff2 : s._sampleOffset = (pcm.headD []).length := by
      rw [hoff]; simp [AudioAnalyser.framesOf, hp]
    rw [A_update_hold s pcm dt hp (by omega)]
    exact ⟨rfl, rfl, hp⟩

/-- C1 (amended): the hold-last-value and terminal-steady-state policy
holds for `AudioAnalyser.update` — an idle call (target at or below the
offset) returns `_lastRms` unchanged and only advances the clock, and
once the offset has reached the frame count every further call returns
the final window's RMS forever — while `LAppWavFileHandler.update`
instead zeroes `lastRms` and returns false on every idle call, including
all calls after its cursor reaches the frame count. -/
theorem C1_amended_hold_policy :
    (∀ (s : AudioAnalyser.State) (pcm : List (List ℚ)) (dt : ℚ),
      s._pcmData = some pcm →
      min (ratFloorToNat ((s._userTimeSeconds + dt) * s._sampleRate))
          ((pcm.headD []).length) ≤ s._sampleOffset →
      AudioAnalyser.update s dt =
        ({ s with _userTimeSeconds := s._userTimeSeconds + dt }, s._lastRmsSq)) ∧
    (∀ (s : AudioAnalyser.State) (dts : List ℚ),
      s._sampleOffset = AudioAnalyser.framesOf s →
      (AudioAnalyser.updateMany s dts)._lastRmsSq = s._lastRmsSq ∧
      (AudioAnalyser.updateMany s dts)._sampleOffset = s._sampleOffset ∧
      (AudioAnalyser.updateMany s dts)._pcmData = s._pcmData) ∧
    (∀ (s : AudioAnalyser.State) (pcm : List (List ℚ)) (dt : ℚ),
      s._pcmData = some pcm → s._sampleOffset = AudioAnalyser.framesOf s →
      (AudioAnalyser.update s dt).2 = s._lastRmsSq) ∧
    (∀ (s : LAppWavFileHandler.State) (wav : ParsedWav) (dt : ℚ),
      s.parsed = some wav → (wav.pcm.headD []).length ≠ 0 →
      min ((wav.pcm.headD []).length)
          (ratFloorToNat ((s.timeSeconds + dt) * wav.sampleRate)) ≤ s.sampleCursor →
      LAppWavFileHandler.update s dt =
        ({ s with timeSeconds := s.timeSeconds + dt, lastRmsSq := 0 }, false)) := by
  refine ⟨A_update_hold, ?_, ?_, ?_⟩
  · intro s dts hoff
    induction dts generalizing s with
    | nil => exact ⟨rfl, rfl, rfl⟩
    | cons dt dts ih =>
      simp only [AudioAnalyser.updateMany, List.foldl_cons] at ih ⊢
      obtain ⟨h1, h2, h3⟩ := A_update_terminal s dt hoff
      have hoff1 : ((AudioAnalyser.update s dt).1)._sampleOffset =
          AudioAnalyser.framesOf ((AudioAnalyser.update s dt).1) := by
        rw [h2, hoff, AudioAnalyser.framesOf, AudioAnalyser.framesOf, h3]
      obtain ⟨g1, g2, g3⟩ := ih _ hoff1
      exact ⟨g1.trans h1, g2.trans h2, g3.trans h3⟩
  · intro s pcm dt hp hoff
    have hoff2 : s._sampleOffset = (pcm.headD []).length := by
      rw [hoff]; simp [AudioAnalyser.framesOf, hp]
    rw [A_update_hold s pcm dt hp (by omega)]
  · intro s wav dt hp hframes hle
    simp only [LAppWavFileHandler.update, hp]
    rw [if_neg hframes, if_pos hle]

/-- C1 witness: an `AudioAnalyser` holding loudness (squared) 9/16 at the
end of a two-frame clip returns it unchanged on an idle call, advancing
only the clock. -/
theorem C1_witness :
    AudioAnalyser.update
        { _pcmData := some [[1, 1]], _sampleRate := 1, _channelCount := 1,
          _lastRmsSq := 9/16, _sampleOffset := 2, _userTimeSeconds := 2 } 0 =
      ({ _pcmData := some [[1, 1]], _sampleRate := 1, _channelCount := 1,
         _lastRmsSq := 9/16, _sampleOffset := 2, _userTimeSeconds := 2 + 0 },
        9/16) :=
  C1_amended_hold_policy.1
    { _pcmData := some [[1, 1]], _sampleRate := 1, _channelCount := 1,
      _lastRmsSq := 9/16, _sampleOffset := 2, _userTimeSeconds := 2 } [[1, 1]] 0 rfl
    (by norm_num [ratFloorToNat])

/-- C1 counterexample: a tracker that has consumed its whole two-frame
clip (constant 1/2, so the held RMS is 1/2 and its square 1/4).  The
claim requires an idle `advance` (target 2 at or below cursor 2) to
return the held value unchanged; `LAppWavFileHandler.update` instead
zeroes the stored loudness and reports false, and the observed loudness
drops from 1/2 to 0. -/
theorem C1_counterexample :
    (LAppWavFileHandler.update
        { parsed := some { sampleRate := 1, channels := 1, pcm := [[1/2, 1/2]] },
          sampleCursor := 2, timeSeconds := 2, lastRmsSq := 1/4, inflight := false }
        0).1.lastRmsSq = 0 ∧
    (LAppWavFileHandler.update
        { parsed := some { sampleRate := 1, channels := 1, pcm := [[1/2, 1/2]] },
          sampleCursor := 2, timeSeconds := 2, lastRmsSq := 1/4, inflight := false }
        0).2 = false ∧
    LAppWavFileHandler.getRms
      (LAppWavFileHandler.update
        { parsed := some { sampleRate := 1, channels := 1, pcm := [[1/2, 1/2]] },
          sampleCursor := 2, timeSeconds := 2, lastRmsSq := 1/4, inflight := false }
        0).1 = 0 ∧
    LAppWavFileHandler.getRms
      { parsed := some { sampleRate := 1, channels := 1, pcm := [[1/2, 1/2]] },
        sampleCursor := 2, timeSeconds := 2, lastRmsSq := 1/4, inflight := false } = 1/2 := by
  have hupd : LAppWavFileHandler.update
      { parsed := some { sampleRate := 1, channels := 1, pcm := [[1/2, 1/2]] },
        sampleCursor := 2, timeSeconds := 2, lastRmsSq := 1/4, inflight := false } 0 =
      ({ parsed := some { sampleRate := 1, channels := 1, pcm := [[1/2, 1/2]] },
         sampleCursor := 2, timeSeconds := 2 + 0, lastRmsSq := 0, inflight := false },
        false) :=
    C1_amended_hold_policy.2.2.2 _ { sampleRate := 1, channels := 1, pcm := [[1/2, 1/2]] } 0
      rfl (by norm_num) (by norm_num [ratFloorToNat])
  rw [hupd]
  refine ⟨rfl, rfl, by simp [LAppWavFileHandler.getRms], ?_⟩
  show Real.sqrt ((1/4 : ℚ) : ℝ) = 1/2
  rw [show ((1/4 : ℚ) : ℝ) = (1/2 : ℝ)^2 by norm_num, Real.sqrt_sq (by norm_num)]

/-- The pooled sum of squares is the double sum the spec states. -/
theorem pooledSumSq_eq (pcm : List (List ℚ)) (c lo hi : Nat) :
    pooledSumSq pcm c lo hi =
      ∑ ch ∈ Finset.range c, ∑ i ∈ Finset.Ico lo hi, ((pcm.getD ch []).getD i 0) ^ 2 := by
  unfold pooledSumSq windowSumSq
  rw [sum_map_range]
  refine Finset.sum_congr rfl fun ch _ => ?_
  rw [sum_map_range, Finset.sum_Ico_eq_sum_range]
  refine Finset.sum_congr rfl fun k _ => ?_
  rw [sq, Nat.add_comm lo k]

/-- The pooled pair count is `channels * windowLength`. -/
theorem pooledCount_eq (c lo hi : Nat) : pooledCount c lo hi = c * (hi - lo) := by
  unfold pooledCount
  induction c with
  | zero => simp
  | succ c ih => simp [List.range_succ, ih]; ring

/-- C6: whenever an `advance` finds `targetSample > sampleCursor`, it
computes the RMS over the half-open window `[sampleCursor, targetSample)`
pooled across all channels — square root of the sum of squares of all
channel-sample pairs divided by `channels * (target - cursor)` — stores
it in `lastRms`, sets the cursor to the target, and the observed loudness
is exactly that square root.  Proved for both trackers. -/
theorem C6_pooled_rms :
    (∀ (s : LAppWavFileHandler.State) (wav : ParsedWav) (dt : ℚ) (target : Nat),
      s.parsed = some wav →
      target = min ((wav.pcm.headD []).length)
        (ratFloorToNat ((s.timeSeconds + dt) * wav.sampleRate)) →
      s.sampleCursor < target →
      LAppWavFileHandler.update s dt =
        ({ s with timeSeconds := s.timeSeconds + dt, sampleCursor := target,
                  lastRmsSq :=
                    (∑ ch ∈ Finset.range wav.channels,
                      ∑ i ∈ Finset.Ico s.sampleCursor target,
                        ((wav.pcm.getD ch []).getD i 0) ^ 2) /
                    ((wav.channels * (target - s.sampleCursor) : Nat) : ℚ) }, true) ∧
      LAppWavFileHandler.getRms (LAppWavFileHandler.update s dt).1 =
        Real.sqrt (((∑ ch ∈ Finset.range wav.channels,
            ∑ i ∈ Finset.Ico s.sampleCursor target,
              ((wav.pcm.getD ch []).getD i 0) ^ 2) /
          ((wav.channels * (target - s.sampleCursor) : Nat) : ℚ) : ℚ))) ∧
    (∀ (s : AudioAnalyser.State) (pcm : List (List ℚ)) (dt : ℚ) (goal : Nat),
      s._pcmData = some pcm →
      goal = min (ratFloorToNat ((s._userTimeSeconds + dt) * s._sampleRate))
        ((pcm.headD []).length) →
      s._sampleOffset < goal →
      AudioAnalyser.update s dt =
        ({ s with _userTimeSeconds := s._userTimeSeconds + dt, _sampleOffset := goal,
                  _lastRmsSq :=
                    (∑ ch ∈ Finset.range s._channelCount,
                      ∑ i ∈ Finset.Ico s._sampleOffset goal,
                        ((pcm.getD ch []).getD i 0) ^ 2) /
                    ((s._channelCount * (goal - s._sampleOffset) : Nat) : ℚ) },
          (∑ ch ∈ Finset.range s._channelCount, ∑ i ∈ Finset.Ico s._sampleOffset goal,
            ((pcm.getD ch []).getD i 0) ^ 2) /
          ((s._channelCount * (goal - s._sampleOffset) : Nat) : ℚ))) := by
  have hfield : ∀ (pcm : List (List ℚ)) (c lo hi : Nat), lo < hi →
      (if pooledCount c lo hi ≠ 0 then
        pooledSumSq pcm c lo hi / (pooledCount c lo hi : ℚ) else 0) =
      (∑ ch ∈ Finset.range c, ∑ i ∈ Finset.Ico lo hi, ((pcm.getD ch []).getD i 0) ^ 2) /
        ((c * (hi - lo) : Nat) : ℚ) := by
    intro pcm c lo hi hlt
    rw [pooledSumSq_eq, pooledCount_eq]
    rcases Nat.eq_zero_or_pos c with hch | hch
    · simp [hch]
    · rw [if_pos (Nat.mul_ne_zero (by omega) (by omega))]
  constructor
  · intro s wav dt target hp ht hlt
    have hframes : ¬((wav.pcm.headD []).length = 0) := by omega
    have hnle : ¬(min ((wav.pcm.headD []).length)
        (ratFloorToNat ((s.timeSeconds + dt) * wav.sampleRate)) ≤ s.sampleCursor) := by
      omega
    have hstate : LAppWavFileHandler.update s dt =
        ({ s with timeSeconds := s.timeSeconds + dt, sampleCursor := target,
                  lastRmsSq :=
                    (∑ ch ∈ Finset.range wav.channels,
                      ∑ i ∈ Finset.Ico s.sampleCursor target,
                        ((wav.pcm.getD ch []).getD i 0) ^ 2) /
                    ((wav.channels * (target - s.sampleCursor) : Nat) : ℚ) }, true) := by
      simp only [LAppWavFileHandler.update, hp]
      rw [if_neg hframes, if_neg hnle]
      subst ht
      rw [hfield wav.pcm wav.channels s.sampleCursor _ hlt]
    refine ⟨hstate, ?_⟩
    rw [hstate]
    simp [LAppWavFileHandler.getRms]
  · intro s pcm dt goal hp hg hlt
    have hmin : (if ratFloorToNat ((s._userTimeSeconds + dt) * s._sampleRate) >
          (pcm.headD []).length then (pcm.headD []).length
        else ratFloorToNat ((s._userTimeSeconds + dt) * s._sampleRate)) =
        min (ratFloorToNat ((s._userTimeSeconds + dt) * s._sampleRate))
          ((pcm.headD []).length) := by
      split_ifs <;> omega
    have hnle : ¬(s._sampleOffset ≥
        min (ratFloorToNat ((s._userTimeSeconds + dt) * s._sampleRate))
          ((pcm.headD []).length)) := by omega
    simp only [AudioAnalyser.update, hp]
    rw [hmin, if_neg hnle]
    subst hg
    rw [show ∀ q : ℚ, (if pooledCount s._channelCount s._sampleOffset
          (min (ratFloorToNat ((s._userTimeSeconds + dt) * s._sampleRate))
            ((pcm.headD []).length)) > 0 then q else 0) =
        (if pooledCount s._channelCount s._sampleOffset
          (min (ratFloorToNat ((s._userTimeSeconds + dt) * s._sampleRate))
            ((pcm.headD []).length)) ≠ 0 then q else 0) from fun q => by
      split_ifs <;> first | rfl | omega]
    rw [hfield pcm s._channelCount s._sampleOffset _ hlt]

/-- C6 witness: advancing a freshly loaded two-frame constant-1 mono clip
by 2 seconds at rate 1 consumes the window `[0, 2)`: the stored mean
square is `(1² + 1²) / (1 * 2) = 1`, the call reports true, and the
observed RMS is `√1 = 1`. -/
theorem C6_witness :
    (LAppWavFileHandler.update
        { parsed := some { sampleRate := 1, channels := 1, pcm := [[1, 1]] },
          sampleCursor := 0, timeSeconds := 0, lastRmsSq := 0, inflight := false }
        2).1.lastRmsSq = 1 ∧
    (LAppWavFileHandler.update
        { parsed := some { sampleRate := 1, channels := 1, pcm := [[1, 1]] },
          sampleCursor := 0, timeSeconds := 0, lastRmsSq := 0, inflight := false }
        2).2 = true ∧
    LAppWavFileHandler.getRms
      (LAppWavFileHandler.update
        { parsed := some { sampleRate := 1, channels := 1, pcm := [[1, 1]] },
          sampleCursor := 0, timeSeconds := 0, lastRmsSq := 0, inflight := false }
        2).1 = 1 := by
  obtain ⟨h1, h2⟩ := C6_pooled_rms.1
    { parsed := some { sampleRate := 1, channels := 1, pcm := [[1, 1]] },
      sampleCursor := 0, timeSeconds := 0, lastRmsSq := 0, inflight := false }
    { sampleRate := 1, channels := 1, pcm := [[1, 1]] } 2 2 rfl
    (by norm_num [ratFloorToNat]) (by norm_num)
  refine ⟨?_, ?_, ?_⟩
  · rw [h1]
    norm_num [Finset.sum_Ico_eq_sum_range, Finset.sum_range_succ, List.getD]
  · rw [h1]
  · rw [h2]
    norm_num [Finset.sum_Ico_eq_sum_range, Finset.sum_range_succ, List.getD, Real.sqrt_one]

/-- An in-bounds 16-bit read succeeds. -/
theorem getUint16LE_eq (buf : Buf) (i : Nat) (h : i + 2 ≤ buf.length) :
    getUint16LE buf i = some (getUint16LED buf i) := by
  unfold getUint16LE
  exact if_pos h

/-- An in-bounds 32-bit read succeeds. -/
theorem getUint32LE_eq (buf : Buf) (i : Nat) (h : i + 4 ≤ buf.length) :
    getUint32LE buf i = some (getUint32LED buf i) := by
  unfold getUint32LE
  exact if_pos h

/-- C3 (amended, for the standalone `parseWav`): every buffer shorter than
12 bytes, without the `RIFF` tag at 0 or the `WAVE` tag at 8, whose chunk
walk finds no `fmt ` or no `data` chunk, or whose fmt fields (present in
the buffer) carry a format code other than 1, zero channels, zero sample
rate, or a bit depth outside {8, 16, 24, 32}, is rejected with the
controlled `null` result — never a thrown fault. -/
theorem C3_rejection_set (buf : Buf) :
    (buf.length < 12 → parseWav buf = .ok none) ∧
    (readFourCC buf 0 ≠ riffTag → parseWav buf = .ok none) ∧
    (readFourCC buf 8 ≠ waveTag → parseWav buf = .ok none) ∧
    ((scanChunks buf 12 none none).1 = none → parseWav buf = .ok none) ∧
    ((scanChunks buf 12 none none).2 = none → parseWav buf = .ok none) ∧
    (∀ fo fs dO dS : Nat,
      scanChunks buf 12 none none = (some (fo, fs), some (dO, dS)) →
      fo + 16 ≤ buf.length →
      (getUint16LED buf fo ≠ 1 ∨ getUint16LED buf (fo + 2) = 0 ∨
        getUint32LED buf (fo + 4) = 0 ∨
        ¬(getUint16LED buf (fo + 14) = 8 ∨ getUint16LED buf (fo + 14) = 16 ∨
          getUint16LED buf (fo + 14) = 24 ∨ getUint16LED buf (fo + 14) = 32)) →
      parseWav buf = .ok none) := by
  refine ⟨?_, ?_, ?_, ?_, ?_, ?_⟩
  · intro h
    simp [parseWav, h]
  · intro h
    by_cases hlen : buf.length < 12
    · simp [parseWav, hlen]
    · simp [parseWav, hlen, h]
  · intro h
    by_cases hlen : buf.length < 12
    · simp [parseWav, hlen]
    · by_cases hr : readFourCC buf 0 = riffTag
      · simp [parseWav, hlen, hr, h]
      · simp [parseWav, hlen, hr]
  · intro h
    by_cases hlen : buf.length < 12
    · simp [parseWav, hlen]
    · by_cases hr : readFourCC buf 0 = riffTag
      · by_cases hw : readFourCC buf 8 = waveTag
        · rcases hscan : scanChunks buf 12 none none with ⟨fmt, data⟩
          rw [hscan] at h
          simp only at h
          subst h
          simp only [parseWav, hlen, hr, hw, hscan]
          rcases data with _ | ⟨a, b⟩ <;> simp
        · simp [parseWav, hlen, hr, hw]
      · simp [parseWav, hlen, hr]
  · intro h
    by_cases hlen : buf.length < 12
    · simp [parseWav, hlen]
    · by_cases hr : readFourCC buf 0 = riffTag
      · by_cases hw : readFourCC buf 8 = waveTag
        · rcases hscan : scanChunks buf 12 none none with ⟨fmt, data⟩
          rw [hscan] at h
          simp only at h
          subst h
          simp only [parseWav, hlen, hr, hw, hscan]
          rcases fmt with _ | ⟨a, b⟩ <;> simp
        · simp [parseWav, hlen, hr, hw]
      · simp [parseWav, hlen, hr]
  · intro fo fs dO dS hscan hbound hbad
    by_cases hlen : buf.length < 12
    · simp [parseWav, hlen]
    · by_cases hr : readFourCC buf 0 = riffTag
      · by_cases hw : readFourCC buf 8 = waveTag
        · simp only [parseWav, hlen, hr, hw, hscan]
          have hguard : ¬(fo + min fs 16 > buf.length) := by omega
          rw [if_neg hguard, getUint16LE_eq buf fo (by omega),
            getUint16LE_eq buf (fo + 2) (by omega), getUint32LE_eq buf (fo + 4) (by omega),
            getUint16LE_eq buf (fo + 14) (by omega)]
          simp only
          rcases hbad with h | h | h | h
          · rw [if_pos h]
            simp
          · by_cases hf : getUint16LED buf fo ≠ 1
            · rw [if_pos hf]
              simp
            · rw [if_neg hf, if_pos (Or.inl h)]
              simp
          · by_cases hf : getUint16LED buf fo ≠ 1
            · rw [if_pos hf]
              simp
            · rw [if_neg hf, if_pos (Or.inr h)]
              simp
          · by_cases hf : getUint16LED buf fo ≠ 1
            · rw [if_pos hf]
              simp
            · by_cases hcr : getUint16LED buf (fo + 2) = 0 ∨ getUint32LED buf (fo + 4) = 0
              · rw [if_neg hf, if_pos hcr]
                simp
              · rw [if_neg hf, if_neg hcr, if_pos h]
                simp
        · simp [parseWav, hlen, hr, hw]
      · simp [parseWav, hlen, hr]

/-- Concrete evaluation: the chunk walk over `rate0Wav`. -/
theorem rate0Wav_scan : scanChunks rate0Wav 12 none none = (some (20, 16), some (44, 2)) := by
  simp +decide [scanChunks, rate0Wav, readFourCC, riffTag, waveTag, fmtTag, dataTag,
    getUint8D, getUint32LED, List.getD]

/-- C3 witness: the zero-sample-rate buffer `rate0Wav` is rejected by the
standalone `parseWav` with the controlled `null` result. -/
theorem C3_witness : parseWav rate0Wav = .ok none :=
  (C3_rejection_set rate0Wav).2.2.2.2.2 20 16 44 2 rate0Wav_scan (by decide)
    (Or.inr (Or.inr (Or.inl (by decide))))

/-- C3 counterexample: `AudioAnalyser.parseWav` never checks the sample
rate: on the zero-sample-rate buffer `rate0Wav` it reports success
(`true`), decoding one frame and storing sample rate 0 — the claim
requires a zero-sample-rate buffer to report decode failure. -/
theorem C3_counterexample :
    AudioAnalyser.parseWav AudioAnalyser.initial rate0Wav =
      ({ _pcmData := some [[-1]], _sampleRate := 0, _channelCount := 1, _lastRmsSq := 0,
         _sampleOffset := 0, _userTimeSeconds := 0 }, .done true) := by
  simp +decide [AudioAnalyser.parseWav, AudioAnalyser.parseChunks, AudioAnalyser.dataChunk,
    AudioAnalyser.initial, rate0Wav, getUint32BED, getUint16LED, getUint32LED, getUint8D,
    getInt16LED, List.getD, List.range_succ]
  norm_num

/-- On any buffer whose headers, chunk walk and fmt fields pass the
checks, `parseWav` succeeds with the record read off the buffer: the
fmt-encoded rate and channel count, and per-channel sample lists of
`min(declaredDataSize, remainingBytes) / (channels * bytesPerSample)`
decoded samples. -/
theorem parseWav_success (buf : Buf) (fo fs dO dS : Nat)
    (hlen : ¬buf.length < 12)
    (hr : readFourCC buf 0 = riffTag) (hw : readFourCC buf 8 = waveTag)
    (hscan : scanChunks buf 12 none none = (some (fo, fs), some (dO, dS)))
    (hbound : fo + 16 ≤ buf.length)
    (hfmt : getUint16LED buf fo = 1)
    (hch : getUint16LED buf (fo + 2) ≠ 0)
    (hrate : getUint32LED buf (fo + 4) ≠ 0)
    (hbits : getUint16LED buf (fo + 14) = 8 ∨ getUint16LED buf (fo + 14) = 16 ∨
      getUint16LED buf (fo + 14) = 24 ∨ getUint16LED buf (fo + 14) = 32) :
    parseWav buf = .ok (some
      { sampleRate := getUint32LED buf (fo + 4), channels := getUint16LED buf (fo + 2),
        pcm := (List.range (getUint16LED buf (fo + 2))).map fun ch =>
          (List.range (min dS (buf.length - dO) /
            (getUint16LED buf (fo + 2) * (getUint16LED buf (fo + 14) / 8)))).map fun i =>
            decodeSampleD buf
              (dO + (i * getUint16LED buf (fo + 2) + ch) *
                (getUint16LED buf (fo + 14) / 8))
              (getUint16LED buf (fo + 14)) }) := by
  have hguard : ¬(fo + min fs 16 > buf.length) := by omega
  simp only [parseWav, hlen, hr, hw, hscan]
  rw [if_neg hguard, getUint16LE_eq buf fo (by omega),
    getUint16LE_eq buf (fo + 2) (by omega), getUint32LE_eq buf (fo + 4) (by omega),
    getUint16LE_eq buf (fo + 14) (by omega)]
  simp only
  rw [if_neg (not_not_intro hbits)]
  simp [hfmt, hch, hrate]

/-- C4 (amended, for the standalone `parseWav`): on any buffer whose
headers, chunk walk and fmt fields pass the checks, the decode succeeds,
reports the fmt-encoded sample rate and channel count, and computes the
frame count as `min(declaredDataSize, actuallyRemainingBytes) /
(channels * bytesPerSample)` — in particular a `data` chunk declaring
more bytes than remain decodes from the actually available bytes rather
than failing. -/
theorem C4_truncation_tolerance (buf : Buf) (fo fs dO dS : Nat)
    (hlen : ¬buf.length < 12)
    (hr : readFourCC buf 0 = riffTag) (hw : readFourCC buf 8 = waveTag)
    (hscan : scanChunks buf 12 none none = (some (fo, fs), some (dO, dS)))
    (hbound : fo + 16 ≤ buf.length)
    (hfmt : getUint16LED buf fo = 1)
    (hch : getUint16LED buf (fo + 2) ≠ 0)
    (hrate : getUint32LED buf (fo + 4) ≠ 0)
    (hbits : getUint16LED buf (fo + 14) = 8 ∨ getUint16LED buf (fo + 14) = 16 ∨
      getUint16LED buf (fo + 14) = 24 ∨ getUint16LED buf (fo + 14) = 32) :
    ∃ pw : ParsedWav, parseWav buf = .ok (some pw) ∧
      pw.sampleRate = getUint32LED buf (fo + 4) ∧
      pw.channels = getUint16LED buf (fo + 2) ∧
      pw.pcm.length = pw.channels ∧
      (∀ ch, ch < pw.channels → (pw.pcm.getD ch []).length =
        min dS (buf.length - dO) /
          (getUint16LED buf (fo + 2) * (getUint16LED buf (fo + 14) / 8))) := by
  refine ⟨_, parseWav_success buf fo fs dO dS hlen hr hw hscan hbound hfmt hch hrate hbits,
    rfl, rfl, ?_, ?_⟩
  · simp
  · intro ch hchlt
    simp only at hchlt
    simp [List.getD, List.getElem?_map, List.getElem?_range hchlt]

/-- Concrete evaluation: the chunk walk over `truncWav` finds the `data`
chunk declaring 100 bytes at payload offset 44 of the 46-byte buffer. -/
theorem truncWav_scan : scanChunks truncWav 12 none none = (some (20, 16), some (44, 100)) := by
  simp +decide [scanChunks, truncWav, readFourCC, riffTag, waveTag, fmtTag, dataTag,
    getUint8D, getUint32LED, List.getD]

/-- C4 witness: `truncWav` declares 100 data bytes but holds 2; `parseWav`
succeeds, reports rate 8000, one channel, and one frame
(`min(100, 2) / (1 * 2)`). -/
theorem C4_witness :
    ∃ pw : ParsedWav, parseWav truncWav = .ok (some pw) ∧
      pw.sampleRate = 8000 ∧ pw.channels = 1 ∧ pw.pcm.length = 1 ∧
      (∀ ch, ch < pw.channels → (pw.pcm.getD ch []).length = 1) := by
  obtain ⟨pw, h1, h2, h3, h4, h5⟩ := C4_truncation_tolerance truncWav 20 16 44 100
    (by decide) (by decide) (by decide) truncWav_scan (by decide) (by decide) (by decide)
    (by decide) (Or.inr (Or.inl (by decide)))
  refine ⟨pw, h1, ?_, ?_, ?_, ?_⟩
  · rw [h2]; decide
  · rw [h3]; decide
  · rw [h4, h3]; decide
  · intro ch hchlt
    rw [h5 ch hchlt]
    decide

/-- C4 counterexample: on the truncated buffer `truncWav` the cited
`AudioAnalyser.parseWav` does not clamp to the available bytes: it
attempts to read all 100 declared bytes, throws a `RangeError` mid-fill
(caught by `load`, which reports failure), whereas the claim requires the
decoder to succeed with the frame count computed from the available
bytes. -/
theorem C4_counterexample :
    (AudioAnalyser.parseWav AudioAnalyser.initial truncWav).2 = .fault ∧
    (AudioAnalyser.load AudioAnalyser.initial (some truncWav)).2 = some false := by
  have h : (AudioAnalyser.parseWav AudioAnalyser.initial truncWav).2 = .fault := by
    simp +decide [AudioAnalyser.parseWav, AudioAnalyser.parseChunks, AudioAnalyser.dataChunk,
      AudioAnalyser.initial, truncWav, getUint32BED, getUint16LED, getUint32LED, getUint8D,
      List.getD]
  refine ⟨h, ?_⟩
  rcases hp : AudioAnalyser.parseWav AudioAnalyser.initial truncWav with ⟨s1, r⟩
  rw [hp] at h
  simp only at h
  subst h
  simp [AudioAnalyser.load, hp]

/-- The `data` branch never produces a normal `false` return: it either
succeeds, throws, or hangs. -/
theorem A_dataChunk_result (s : AudioAnalyser.State) (buf : Buf) (payload size : Nat) :
    (AudioAnalyser.dataChunk s buf payload size).2 ≠ .done false := by
  unfold AudioAnalyser.dataChunk
  dsimp only
  split_ifs <;> simp

/-- A chunk walk that returns a normal `false` never touches `_pcmData`,
`_sampleOffset`, `_userTimeSeconds` or `_lastRmsSq` (only `_channelCount`
and `_sampleRate` may have been overwritten by `fmt ` chunks seen on the
way). -/
theorem A_parseChunks_false (buf : Buf) : ∀ (fuel offset : Nat) (s : AudioAnalyser.State),
    buf.length - offset ≤ fuel →
    ∀ s1 : AudioAnalyser.State,
    AudioAnalyser.parseChunks s buf offset = (s1, .done false) →
    s1._pcmData = s._pcmData ∧ s1._sampleOffset = s._sampleOffset ∧
    s1._userTimeSeconds = s._userTimeSeconds ∧ s1._lastRmsSq = s._lastRmsSq := by
  intro fuel
  induction fuel with
  | zero =>
    intro offset s hle s1 h
    rw [AudioAnalyser.parseChunks, dif_neg (by omega)] at h
    injection h with ha hb
    subst ha
    exact ⟨rfl, rfl, rfl, rfl⟩
  | succ fuel ih =>
    intro offset s hle s1 h
    rw [AudioAnalyser.parseChunks] at h
    dsimp only at h
    split_ifs at h <;>
      first
        | (injection h with ha hb; subst ha; exact ⟨rfl, rfl, rfl, rfl⟩)
        | (exact absurd (congrArg Prod.snd h) (A_dataChunk_result _ _ _ _))
        | (obtain ⟨g1, g2, g3, g4⟩ := ih _ _ (by omega) s1 h; exact ⟨g1, g2, g3, g4⟩)

/-- C9 (amended): a decode attempt that ends in the controlled `false`
return leaves the previously-loaded samples (`_pcmData`) and the playback
state (`_sampleOffset`, `_userTimeSeconds`, `_lastRms`) untouched, but it
may overwrite `_channelCount` and `_sampleRate` with values from the
failing buffer's `fmt ` chunk before failing. -/
theorem C9_failure_atomicity (s : AudioAnalyser.State) (buf : Buf) (s1 : AudioAnalyser.State)
    (h : AudioAnalyser.parseWav s buf = (s1, .done false)) :
    s1._pcmData = s._pcmData ∧ s1._sampleOffset = s._sampleOffset ∧
    s1._userTimeSeconds = s._userTimeSeconds ∧ s1._lastRmsSq = s._lastRmsSq := by
  unfold AudioAnalyser.parseWav at h
  split_ifs at h <;>
    first
      | (injection h with ha hb; subst ha; exact ⟨rfl, rfl, rfl, rfl⟩)
      | (exact A_parseChunks_false buf buf.length 12 s (by omega) s1 h)

/-- Concrete evaluation: on a tracker already holding decoded audio,
parsing `badFmtWav` fails with `false` after overwriting the channel
count and the sample rate from the failing buffer's fmt chunk. -/
theorem badFmtWav_parse :
    AudioAnalyser.parseWav
      { _pcmData := some [[1/2]], _sampleRate := 8000, _channelCount := 1,
        _lastRmsSq := 1/4, _sampleOffset := 1, _userTimeSeconds := 1 } badFmtWav =
    ({ _pcmData := some [[1/2]], _sampleRate := 4000, _channelCount := 2,
       _lastRmsSq := 1/4, _sampleOffset := 1, _userTimeSeconds := 1 }, .done false) := by
  simp +decide [AudioAnalyser.parseWav, AudioAnalyser.parseChunks, badFmtWav,
    getUint32BED, getUint16LED, getUint32LED, getUint8D, List.getD]

/-- C9 witness: after the failing `badFmtWav` decode, the previously
loaded samples and playback state are untouched. -/
theorem C9_witness :
    (AudioAnalyser.parseWav
      { _pcmData := some [[1/2]], _sampleRate := 8000, _channelCount := 1,
        _lastRmsSq := 1/4, _sampleOffset := 1, _userTimeSeconds := 1 } badFmtWav).1._pcmData =
      some [[1/2]] ∧
    (AudioAnalyser.parseWav
      { _pcmData := some [[1/2]], _sampleRate := 8000, _channelCount := 1,
        _lastRmsSq := 1/4, _sampleOffset := 1, _userTimeSeconds := 1 }
      badFmtWav).1._sampleOffset = 1 := by
  obtain ⟨g1, g2, g3, g4⟩ := C9_failure_atomicity _ _ _ badFmtWav_parse
  rw [badFmtWav_parse]
  exact ⟨g1, g2⟩

/-- C9 counterexample: the failing decode of `badFmtWav` (bit depth 12) on
a tracker holding audio decoded at 8000 Hz mono overwrites the tracker's
sample rate (8000 → 4000) and channel count (1 → 2) while `_pcmData`
still holds the old samples — the decoded-audio state is partially
modified by a failing decode, which the claim forbids. -/
theorem C9_counterexample :
    AudioAnalyser.parseWav
      { _pcmData := some [[1/2]], _sampleRate := 8000, _channelCount := 1,
        _lastRmsSq := 1/4, _sampleOffset := 1, _userTimeSeconds := 1 } badFmtWav =
    ({ _pcmData := some [[1/2]], _sampleRate := 4000, _channelCount := 2,
       _lastRmsSq := 1/4, _sampleOffset := 1, _userTimeSeconds := 1 }, .done false) ∧
    (4000 : Nat) ≠ 8000 ∧ (2 : Nat) ≠ 1 := by
  refine ⟨?_, by decide, by decide⟩
  simp +decide [AudioAnalyser.parseWav, AudioAnalyser.parseChunks, badFmtWav,
    getUint32BED, getUint16LED, getUint32LED, getUint8D, List.getD]

/-- C10 witness: a fresh world stores the instance it returns, and a world
already holding instance 5 returns it unchanged. -/
theorem C10_witness :
    (LAppWavFileHandler.getInstance { s_instance := none, nextId := 0 }).1.s_instance =
      some (LAppWavFileHandler.getInstance { s_instance := none, nextId := 0 }).2 ∧
    LAppWavFileHandler.getInstance { s_instance := some 5, nextId := 6 } =
      ({ s_instance := some 5, nextId := 6 }, 5) :=
  ⟨C10_singleton_sharing.1 _ rfl, C10_singleton_sharing.2.1 _ 5 rfl⟩

/-! ### Round-trip infrastructure for C8 -/

/-- Reading one byte just past a prefix of known length. -/
theorem getUint8D_at (l1 l2 : Buf) (j : Nat) :
    getUint8D (l1 ++ l2) (l1.length + j) = getUint8D l2 j := by
  unfold getUint8D
  rw [List.getD_append_right l1 l2 0 (l1.length + j) (Nat.le_add_right _ _)]
  congr 1
  omega

/-- A 16-bit little-endian field placed right after a prefix of length `i`
reads back as its value. -/
theorem getU16_at (l1 l2 : Buf) (v i : Nat) (h1 : l1.length = i) (hv : v < 65536) :
    getUint16LED (l1 ++ (u16Bytes v ++ l2)) i = v := by
  subst h1
  unfold getUint16LED
  have h0 := getUint8D_at l1 (u16Bytes v ++ l2) 0
  have h1 := getUint8D_at l1 (u16Bytes v ++ l2) 1
  rw [Nat.add_zero] at h0
  rw [h0, h1]
  simp only [u16Bytes, List.cons_append, getUint8D, List.getD]
  simp
  omega

/-- A 32-bit little-endian field placed right after a prefix of length `i`
reads back as its value. -/
theorem getU32_at (l1 l2 : Buf) (v i : Nat) (h1 : l1.length = i) (hv : v < 4294967296) :
    getUint32LED (l1 ++ (u32Bytes v ++ l2)) i = v := by
  subst h1
  unfold getUint32LED
  have h0 := getUint8D_at l1 (u32Bytes v ++ l2) 0
  have h1 := getUint8D_at l1 (u32Bytes v ++ l2) 1
  have h2 := getUint8D_at l1 (u32Bytes v ++ l2) 2
  have h3 := getUint8D_at l1 (u32Bytes v ++ l2) 3
  rw [Nat.add_zero] at h0
  rw [h0, h1, h2, h3]
  simp only [u32Bytes, List.cons_append, getUint8D, List.getD]
  simp
  omega

/-- A four-byte tag placed right after a prefix of length `i` reads back. -/
theorem fourCC_at (l1 l2 : Buf) (a b c d i : Nat) (h1 : l1.length = i) :
    readFourCC (l1 ++ ([a, b, c, d] ++ l2)) i = (a, b, c, d) := by
  subst h1
  unfold readFourCC
  have h0 := getUint8D_at l1 ([a, b, c, d] ++ l2) 0
  have h1 := getUint8D_at l1 ([a, b, c, d] ++ l2) 1
  have h2 := getUint8D_at l1 ([a, b, c, d] ++ l2) 2
  have h3 := getUint8D_at l1 ([a, b, c, d] ++ l2) 3
  rw [Nat.add_zero] at h0
  rw [h0, h1, h2, h3]
  simp [getUint8D, List.getD]

/-- Length of a 16-bit field. -/
theorem u16Bytes_length (v : Nat) : (u16Bytes v).length = 2 := rfl

/-- Length of a 32-bit field. -/
theorem u32Bytes_length (v : Nat) : (u32Bytes v).length = 4 := rfl

/-- Length of an encoded sample. -/
theorem sampleBytes_length (bits : Nat) (v : Int) : (sampleBytes bits v).length = bits / 8 := by
  simp [sampleBytes]

/-- Length of a `flatMap` whose pieces all have length `L`. -/
theorem length_flatMap_const {α : Type} (l : List α) (f : α → Buf) (L : Nat)
    (hf : ∀ a ∈ l, (f a).length = L) : (l.flatMap f).length = l.length * L := by
  induction l with
  | nil => simp
  | cons a l ih =>
    simp only [List.flatMap_cons, List.length_append, List.length_cons]
    rw [hf a (by simp), ih (fun x hx => hf x (by simp [hx]))]
    ring

/-- The header fields of `mkWav` read back as encoded: buffer length,
`RIFF`/`WAVE`/`fmt `/`data` tags, fmt chunk size 16, format code 1,
channel count, sample rate, bits per sample, declared data size, and the
data region starting at offset 44. -/
theorem mkWav_fields (rate channels bits frames : Nat) (sample : Nat → Nat → Int)
    (hc : channels < 65536) (hr : rate < 4294967296) (hb : bits < 65536)
    (hds : frames * channels * (bits / 8) < 4294967296) :
    (mkWav rate channels bits frames sample).length =
      44 + frames * channels * (bits / 8) ∧
    readFourCC (mkWav rate channels bits frames sample) 0 = riffTag ∧
    readFourCC (mkWav rate channels bits frames sample) 8 = waveTag ∧
    readFourCC (mkWav rate channels bits frames sample) 12 = fmtTag ∧
    getUint32LED (mkWav rate channels bits frames sample) 16 = 16 ∧
    getUint16LED (mkWav rate channels bits frames sample) 20 = 1 ∧
    getUint16LED (mkWav rate channels bits frames sample) 22 = channels ∧
    getUint32LED (mkWav rate channels bits frames sample) 24 = rate ∧
    getUint16LED (mkWav rate channels bits frames sample) 34 = bits ∧
    readFourCC (mkWav rate channels bits frames sample) 36 = dataTag ∧
    getUint32LED (mkWav rate channels bits frames sample) 40 =
      frames * channels * (bits / 8) ∧
    (∀ k, getUint8D (mkWav rate channels bits frames sample) (44 + k) =
      getUint8D ((List.range frames).flatMap fun i =>
        (List.range channels).flatMap fun ch => sampleBytes bits (sample ch i)) k) := by
  have hmk : mkWav rate channels bits frames sample =
      [82, 73, 70, 70] ++ u32Bytes (36 + frames * channels * (bits / 8)) ++
        [87, 65, 86, 69] ++ [102, 109, 116, 32] ++ u32Bytes 16 ++ u16Bytes 1 ++
        u16Bytes channels ++ u32Bytes rate ++ u32Bytes (rate * channels * (bits / 8)) ++
        u16Bytes (channels * (bits / 8)) ++ u16Bytes bits ++ [100, 97, 116, 97] ++
        u32Bytes (frames * channels * (bits / 8)) ++
        ((List.range frames).flatMap fun i =>
          (List.range channels).flatMap fun ch => sampleBytes bits (sample ch i)) := by
    simp [mkWav]
  refine ⟨?_, ?_, ?_, ?_, ?_, ?_, ?_, ?_, ?_, ?_, ?_, ?_⟩
  · rw [hmk]
    simp only [List.length_append, u16Bytes_length, u32Bytes_length, List.length_cons,
      List.length_nil]
    rw [length_flatMap_const _ _ (channels * (bits / 8)) (fun i _ => by
      rw [length_flatMap_const _ _ (bits / 8) (fun ch _ => sampleBytes_length bits _)]
      simp [List.length_range])]
    simp [List.length_range]
    ring
  · rw [hmk, show [82, 73, 70, 70] ++ u32Bytes (36 + frames * channels * (bits / 8)) ++
        [87, 65, 86, 69] ++ [102, 109, 116, 32] ++ u32Bytes 16 ++ u16Bytes 1 ++
        u16Bytes channels ++ u32Bytes rate ++ u32Bytes (rate * channels * (bits / 8)) ++
        u16Bytes (channels * (bits / 8)) ++ u16Bytes bits ++ [100, 97, 116, 97] ++
        u32Bytes (frames * channels * (bits / 8)) ++
        ((List.range frames).flatMap fun i =>
          (List.range channels).flatMap fun ch => sampleBytes bits (sample ch i)) =
      ([] : Buf) ++ ([82, 73, 70, 70] ++
        (u32Bytes (36 + frames * channels * (bits / 8)) ++
        ([87, 65, 86, 69] ++ ([102, 109, 116, 32] ++ (u32Bytes 16 ++ (u16Bytes 1 ++
        (u16Bytes channels ++ (u32Bytes rate ++ (u32Bytes (rate * channels * (bits / 8)) ++
        (u16Bytes (channels * (bits / 8)) ++ (u16Bytes bits ++ ([100, 97, 116, 97] ++
        (u32Bytes (frames * channels * (bits / 8)) ++
        ((List.range frames).flatMap fun i =>
          (List.range channels).flatMap fun ch =>
            sampleBytes bits (sample ch i)))))))))))))))
      from by simp [List.append_assoc]]
    exact fourCC_at _ _ 82 73 70 70 0 rfl
  · rw [hmk, show [82, 73, 70, 70] ++ u32Bytes (36 + frames * channels * (bits / 8)) ++
        [87, 65, 86, 69] ++ [102, 109, 116, 32] ++ u32Bytes 16 ++ u16Bytes 1 ++
        u16Bytes channels ++ u32Bytes rate ++ u32Bytes (rate * channels * (bits / 8)) ++
        u16Bytes (channels * (bits / 8)) ++ u16Bytes bits ++ [100, 97, 116, 97] ++
        u32Bytes (frames * channels * (bits / 8)) ++
        ((List.range frames).flatMap fun i =>
          (List.range channels).flatMap fun ch => sampleBytes bits (sample ch i)) =
      ([82, 73, 70, 70] ++ u32Bytes (36 + frames * channels * (bits / 8))) ++
        ([87, 65, 86, 69] ++ ([102, 109, 116, 32] ++ (u32Bytes 16 ++ (u16Bytes 1 ++
        (u16Bytes channels ++ (u32Bytes rate ++ (u32Bytes (rate * channels * (bits / 8)) ++
        (u16Bytes (channels * (bits / 8)) ++ (u16Bytes bits ++ ([100, 97, 116, 97] ++
        (u32Bytes (frames * channels * (bits / 8)) ++
        ((List.range frames).flatMap fun i =>
          (List.range channels).flatMap fun ch => sampleBytes bits (sample ch i)))))))))))))
      from by simp [List.append_assoc]]
    exact fourCC_at _ _ 87 65 86 69 8 (by simp [u32Bytes_length])
  · rw [hmk, show [82, 73, 70, 70] ++ u32Bytes (36 + frames * channels * (bits / 8)) ++
        [87, 65, 86, 69] ++ [102, 109, 116, 32] ++ u32Bytes 16 ++ u16Bytes 1 ++
        u16Bytes channels ++ u32Bytes rate ++ u32Bytes (rate * channels * (bits / 8)) ++
        u16Bytes (channels * (bits / 8)) ++ u16Bytes bits ++ [100, 97, 116, 97] ++
        u32Bytes (frames * channels * (bits / 8)) ++
        ((List.range frames).flatMap fun i =>
          (List.range channels).flatMap fun ch => sampleBytes bits (sample ch i)) =
      ([82, 73, 70, 70] ++ u32Bytes (36 + frames * channels * (bits / 8)) ++
        [87, 65, 86, 69]) ++
        ([102, 109, 116, 32] ++ (u32Bytes 16 ++ (u16Bytes 1 ++
        (u16Bytes channels ++ (u32Bytes rate ++ (u32Bytes (rate * channels * (bits / 8)) ++
        (u16Bytes (channels * (bits / 8)) ++ (u16Bytes bits ++ ([100, 97, 116, 97] ++
        (u32Bytes (frames * channels * (bits / 8)) ++
        ((List.range frames).flatMap fun i =>
          (List.range channels).flatMap fun ch => sampleBytes bits (sample ch i))))))))))))
      from by simp [List.append_assoc]]
    exact fourCC_at _ _ 102 109 116 32 12 (by simp [u32Bytes_length])
  · rw [hmk, show [82, 73, 70, 70] ++ u32Bytes (36 + frames * channels * (bits / 8)) ++
        [87, 65, 86, 69] ++ [102, 109, 116, 32] ++ u32Bytes 16 ++ u16Bytes 1 ++
        u16Bytes channels ++ u32Bytes rate ++ u32Bytes (rate * channels * (bits / 8)) ++
        u16Bytes (channels * (bits / 8)) ++ u16Bytes bits ++ [100, 97, 116, 97] ++
        u32Bytes (frames * channels * (bits / 8)) ++
        ((List.range frames).flatMap fun i =>
          (List.range channels).flatMap fun ch => sampleBytes bits (sample ch i)) =
      ([82, 73, 70, 70] ++ u32Bytes (36 + frames * channels * (bits / 8)) ++
        [87, 65, 86, 69] ++ [102, 109, 116, 32]) ++
        (u32Bytes 16 ++ (u16Bytes 1 ++
        (u16Bytes channels ++ (u32Bytes rate ++ (u32Bytes (rate * channels * (bits / 8)) ++
        (u16Bytes (channels * (bits / 8)) ++ (u16Bytes bits ++ ([100, 97, 116, 97] ++
        (u32Bytes (frames * channels * (bits / 8)) ++
        ((List.range frames).flatMap fun i =>
          (List.range channels).flatMap fun ch => sampleBytes bits (sample ch i)))))))))))
      from by simp [List.append_assoc]]
    exact getU32_at _ _ 16 16 (by simp [u32Bytes_length]) (by norm_num)
  · rw [hmk, show [82, 73, 70, 70] ++ u32Bytes (36 + frames * channels * (bits / 8)) ++
        [87, 65, 86, 69] ++ [102, 109, 116, 32] ++ u32Bytes 16 ++ u16Bytes 1 ++
        u16Bytes channels ++ u32Bytes rate ++ u32Bytes (rate * channels * (bits / 8)) ++
        u16Bytes (channels * (bits / 8)) ++ u16Bytes bits ++ [100, 97, 116, 97] ++
        u32Bytes (frames * channels * (bits / 8)) ++
        ((List.range frames).flatMap fun i =>
          (List.range channels).flatMap fun ch => sampleBytes bits (sample ch i)) =
      ([82, 73, 70, 70] ++ u32Bytes (36 + frames * channels * (bits / 8)) ++
        [87, 65, 86, 69] ++ [102, 109, 116, 32] ++ u32Bytes 16) ++
        (u16Bytes 1 ++
        (u16Bytes channels ++ (u32Bytes rate ++ (u32Bytes (rate * channels * (bits / 8)) ++
        (u16Bytes (channels * (bits / 8)) ++ (u16Bytes bits ++ ([100, 97, 116, 97] ++
        (u32Bytes (frames * channels * (bits / 8)) ++
        ((List.range frames).flatMap fun i =>
          (List.range channels).flatMap fun ch => sampleBytes bits (sample ch i))))))))))
      from by simp [List.append_assoc]]
    exact getU16_at _ _ 1 20 (by simp [u32Bytes_length]) (by norm_num)
  · rw [hmk, show [82, 73, 70, 70] ++ u32Bytes (36 + frames * channels * (bits / 8)) ++
        [87, 65, 86, 69] ++ [102, 109, 116, 32] ++ u32Bytes 16 ++ u16Bytes 1 ++
        u16Bytes channels ++ u32Bytes rate ++ u32Bytes (rate * channels * (bits / 8)) ++
        u16Bytes (channels * (bits / 8)) ++ u16Bytes bits ++ [100, 97, 116, 97] ++
        u32Bytes (frames * channels * (bits / 8)) ++
        ((List.range frames).flatMap fun i =>
          (List.range channels).flatMap fun ch => sampleBytes bits (sample ch i)) =
      ([82, 73, 70, 70] ++ u32Bytes (36 + frames * channels * (bits / 8)) ++
        [87, 65, 86, 69] ++ [102, 109, 116, 32] ++ u32Bytes 16 ++ u16Bytes 1) ++
        (u16Bytes channels ++ (u32Bytes rate ++ (u32Bytes (rate * channels * (bits / 8)) ++
        (u16Bytes (channels * (bits / 8)) ++ (u16Bytes bits ++ ([100, 97, 116, 97] ++
        (u32Bytes (frames * channels * (bits / 8)) ++
        ((List.range frames).flatMap fun i =>
          (List.range channels).flatMap fun ch => sampleBytes bits (sample ch i)))))))))
      from by simp [List.append_assoc]]
    exact getU16_at _ _ channels 22 (by simp [u32Bytes_length, u16Bytes_length]) hc
  · rw [hmk, show [82, 73, 70, 70] ++ u32Bytes (36 + frames * channels * (bits / 8)) ++
        [87, 65, 86, 69] ++ [102, 109, 116, 32] ++ u32Bytes 16 ++ u16Bytes 1 ++
        u16Bytes channels ++ u32Bytes rate ++ u32Bytes (rate * channels * (bits / 8)) ++
        u16Bytes (channels * (bits / 8)) ++ u16Bytes bits ++ [100, 97, 116, 97] ++
        u32Bytes (frames * channels * (bits / 8)) ++
        ((List.range frames).flatMap fun i =>
          (List.range channels).flatMap fun ch => sampleBytes bits (sample ch i)) =
      ([82, 73, 70, 70] ++ u32Bytes (36 + frames * channels * (bits / 8)) ++
        [87, 65, 86, 69] ++ [102, 109, 116, 32] ++ u32Bytes 16 ++ u16Bytes 1 ++
        u16Bytes channels) ++
        (u32Bytes rate ++ (u32Bytes (rate * channels * (bits / 8)) ++
        (u16Bytes (channels * (bits / 8)) ++ (u16Bytes bits ++ ([100, 97, 116, 97] ++
        (u32Bytes (frames * channels * (bits / 8)) ++
        ((List.range frames).flatMap fun i =>
          (List.range channels).flatMap fun ch => sampleBytes bits (sample ch i))))))))
      from by simp [List.append_assoc]]
    exact getU32_at _ _ rate 24 (by simp [u32Bytes_length, u16Bytes_length]) hr
  · rw [hmk, show [82, 73, 70, 70] ++ u32Bytes (36 + frames * channels * (bits / 8)) ++
        [87, 65, 86, 69] ++ [102, 109, 116, 32] ++ u32Bytes 16 ++ u16Bytes 1 ++
        u16Bytes channels ++ u32Bytes rate ++ u32Bytes (rate * channels * (bits / 8)) ++
        u16Bytes (channels * (bits / 8)) ++ u16Bytes bits ++ [100, 97, 116, 97] ++
        u32Bytes (frames * channels * (bits / 8)) ++
        ((List.range frames).flatMap fun i =>
          (List.range channels).flatMap fun ch => sampleBytes bits (sample ch i)) =
      ([82, 73, 70, 70] ++ u32Bytes (36 + frames * channels * (bits / 8)) ++
        [87, 65, 86, 69] ++ [102, 109, 116, 32] ++ u32Bytes 16 ++ u16Bytes 1 ++
        u16Bytes channels ++ u32Bytes rate ++ u32Bytes (rate * channels * (bits / 8)) ++
        u16Bytes (channels * (bits / 8))) ++
        (u16Bytes bits ++ ([100, 97, 116, 97] ++
        (u32Bytes (frames * channels * (bits / 8)) ++
        ((List.range frames).flatMap fun i =>
          (List.range channels).flatMap fun ch => sampleBytes bits (sample ch i)))))
      from by simp [List.append_assoc]]
    exact getU16_at _ _ bits 34 (by simp [u32Bytes_length, u16Bytes_length]) hb
  · rw [hmk, show [82, 73, 70, 70] ++ u32Bytes (36 + frames * channels * (bits / 8)) ++
        [87, 65, 86, 69] ++ [102, 109, 116, 32] ++ u32Bytes 16 ++ u16Bytes 1 ++
        u16Bytes channels ++ u32Bytes rate ++ u32Bytes (rate * channels * (bits / 8)) ++
        u16Bytes (channels * (bits / 8)) ++ u16Bytes bits ++ [100, 97, 116, 97] ++
        u32Bytes (frames * channels * (bits / 8)) ++
        ((List.range frames).flatMap fun i =>
          (List.range channels).flatMap fun ch => sampleBytes bits (sample ch i)) =
      ([82, 73, 70, 70] ++ u32Bytes (36 + frames * channels * (bits / 8)) ++
        [87, 65, 86, 69] ++ [102, 109, 116, 32] ++ u32Bytes 16 ++ u16Bytes 1 ++
        u16Bytes channels ++ u32Bytes rate ++ u32Bytes (rate * channels * (bits / 8)) ++
        u16Bytes (channels * (bits / 8)) ++ u16Bytes bits) ++
        ([100, 97, 116, 97] ++
        (u32Bytes (frames * channels * (bits / 8)) ++
        ((List.range frames).flatMap fun i =>
          (List.range channels).flatMap fun ch => sampleBytes bits (sample ch i))))
      from by simp [List.append_assoc]]
    exact fourCC_at _ _ 100 97 116 97 36 (by simp [u32Bytes_length, u16Bytes_length])
  · rw [hmk, show [82, 73, 70, 70] ++ u32Bytes (36 + frames * channels * (bits / 8)) ++
        [87, 65, 86, 69] ++ [102, 109, 116, 32] ++ u32Bytes 16 ++ u16Bytes 1 ++
        u16Bytes channels ++ u32Bytes rate ++ u32Bytes (rate * channels * (bits / 8)) ++
        u16Bytes (channels * (bits / 8)) ++ u16Bytes bits ++ [100, 97, 116, 97] ++
        u32Bytes (frames * channels * (bits / 8)) ++
        ((List.range frames).flatMap fun i =>
          (List.range channels).flatMap fun ch => sampleBytes bits (sample ch i)) =
      ([82, 73, 70, 70] ++ u32Bytes (36 + frames * channels * (bits / 8)) ++
        [87, 65, 86, 69] ++ [102, 109, 116, 32] ++ u32Bytes 16 ++ u16Bytes 1 ++
        u16Bytes channels ++ u32Bytes rate ++ u32Bytes (rate * channels * (bits / 8)) ++
        u16Bytes (channels * (bits / 8)) ++ u16Bytes bits ++ [100, 97, 116, 97]) ++
        (u32Bytes (frames * channels * (bits / 8)) ++
        ((List.range frames).flatMap fun i =>
          (List.range channels).flatMap fun ch => sampleBytes bits (sample ch i)))
      from by simp [List.append_assoc]]
    exact getU32_at _ _ _ 40 (by simp [u32Bytes_length, u16Bytes_length]) hds
  · intro k
    rw [hmk, show [82, 73, 70, 70] ++ u32Bytes (36 + frames * channels * (bits / 8)) ++
        [87, 65, 86, 69] ++ [102, 109, 116, 32] ++ u32Bytes 16 ++ u16Bytes 1 ++
        u16Bytes channels ++ u32Bytes rate ++ u32Bytes (rate * channels * (bits / 8)) ++
        u16Bytes (channels * (bits / 8)) ++ u16Bytes bits ++ [100, 97, 116, 97] ++
        u32Bytes (frames * channels * (bits / 8)) ++
        ((List.range frames).flatMap fun i =>
          (List.range channels).flatMap fun ch => sampleBytes bits (sample ch i)) =
      ([82, 73, 70, 70] ++ u32Bytes (36 + frames * channels * (bits / 8)) ++
        [87, 65, 86, 69] ++ [102, 109, 116, 32] ++ u32Bytes 16 ++ u16Bytes 1 ++
        u16Bytes channels ++ u32Bytes rate ++ u32Bytes (rate * channels * (bits / 8)) ++
        u16Bytes (channels * (bits / 8)) ++ u16Bytes bits ++ [100, 97, 116, 97] ++
        u32Bytes (frames * channels * (bits / 8))) ++
        ((List.range frames).flatMap fun i =>
          (List.range channels).flatMap fun ch => sampleBytes bits (sample ch i))
      from by simp [List.append_assoc]]
    rw [show (44 : Nat) + k = ([82, 73, 70, 70] ++
        u32Bytes (36 + frames * channels * (bits / 8)) ++
        [87, 65, 86, 69] ++ [102, 109, 116, 32] ++ u32Bytes 16 ++ u16Bytes 1 ++
        u16Bytes channels ++ u32Bytes rate ++ u32Bytes (rate * channels * (bits / 8)) ++
        u16Bytes (channels * (bits / 8)) ++ u16Bytes bits ++ [100, 97, 116, 97] ++
        u32Bytes (frames * channels * (bits / 8))).length + k
      from by simp [u32Bytes_length, u16Bytes_length]]
    exact getUint8D_at _ _ k

/-- The chunk walk over a well-formed `mkWav` buffer finds the fmt chunk
(payload 20, size 16) and the data chunk (payload 44, declared size). -/
theorem mkWav_scan (rate channels bits frames : Nat) (sample : Nat → Nat → Int)
    (hc : channels < 65536) (hr : rate < 4294967296) (hb : bits < 65536)
    (hds : frames * channels * (bits / 8) < 4294967296) :
    scanChunks (mkWav rate channels bits frames sample) 12 none none =
      (some (20, 16), some (44, frames * channels * (bits / 8))) := by
  obtain ⟨hlen, -, -, h12, h16, -, -, -, -, h36, h40, -⟩ :=
    mkWav_fields rate channels bits frames sample hc hr hb hds
  rw [scanChunks, dif_pos (by rw [hlen]; omega)]
  norm_num [h12, h16]
  rw [scanChunks, dif_pos (by rw [hlen]; omega)]
  norm_num [h36, h40]
  rw [scanChunks, dif_neg (by norm_num [hlen, h40]; omega)]
  rw [if_neg (show ¬(dataTag = fmtTag) by decide)]

/-- Indexing a `flatMap` of constant-length pieces. -/
theorem flatMap_getD {α : Type} (l : List α) (f : α → Buf) (L : Nat)
    (hf : ∀ a ∈ l, (f a).length = L) :
    ∀ (i k : Nat) (hi : i < l.length), k < L →
      (l.flatMap f).getD (i * L + k) 0 = (f (l.get ⟨i, hi⟩)).getD k 0 := by
  induction l with
  | nil => intro i k hi _; simp at hi
  | cons a l ih =>
    intro i k hi hk
    rcases i with _ | i
    · simp only [List.flatMap_cons]
      rw [List.getD_append _ _ _ _ (by rw [hf a (by simp)]; omega)]
      simp
    · simp only [List.flatMap_cons]
      rw [List.getD_append_right _ _ _ _
        (by rw [hf a (by simp)]; calc L ≤ i * L + L + k := by omega
              _ = (i + 1) * L + k := by ring)]
      rw [show (i + 1) * L + k - (f a).length = i * L + k from by
        rw [hf a (by simp), Nat.succ_mul]; omega]
      rw [ih (fun x hx => hf x (by simp [hx])) i k (by simpa using hi) hk]
      simp

/-- The `j`-th byte of an encoded sample. -/
theorem sampleBytes_getD (bits : Nat) (v : Int) (j : Nat) (hj : j < bits / 8) :
    (sampleBytes bits v).getD j 0 = (v % (2 ^ bits : Int)).toNat / 256 ^ j % 256 := by
  simp [sampleBytes, List.getD, List.getElem?_map, List.getElem?_range hj]

/-- The clamp always lands in `[-1, 1]`. -/
theorem clampSample_mem (x : ℚ) : -1 ≤ clampSample x ∧ clampSample x ≤ 1 := by
  unfold clampSample
  constructor
  · exact le_max_left _ _
  · apply max_le
    · norm_num
    · exact min_le_left _ _

/-- Decoding the bytes of an encoded sample recovers the claim's
normalization of the stored integer, for every supported depth. -/
theorem decodeSample_of_bytes (buf : Buf) (p : Nat) (bits : Nat) (v : Int)
    (hbits : bits = 8 ∨ bits = 16 ∨ bits = 24 ∨ bits = 32) (hv : sampleInRange bits v)
    (hbytes : ∀ j, j < bits / 8 → getUint8D buf (p + j) = (sampleBytes bits v).getD j 0) :
    decodeSampleD buf p bits = clampSample (normSample bits v) := by
  rcases hbits with h | h | h | h <;> subst h
  · have hb0 := hbytes 0 (by norm_num)
    rw [sampleBytes_getD 8 v 0 (by norm_num)] at hb0
    norm_num at hb0
    have hrange : 0 ≤ v ∧ v < 256 := by simpa [sampleInRange] using hv
    have hlt : (v % 256).toNat < 256 := by omega
    rw [Nat.mod_eq_of_lt hlt] at hb0
    unfold decodeSampleD normSample
    rw [if_pos rfl, if_pos rfl, hb0]
    rw [show (((v % 256).toNat : Int)) = v from by omega]
    push_cast
    ring_nf
  · have hb0 := hbytes 0 (by norm_num)
    have hb1 := hbytes 1 (by norm_num)
    rw [sampleBytes_getD 16 v 0 (by norm_num)] at hb0
    rw [sampleBytes_getD 16 v 1 (by norm_num)] at hb1
    norm_num at hb0 hb1
    have hrange : -32768 ≤ v ∧ v < 32768 := by simpa [sampleInRange] using hv
    unfold decodeSampleD
    rw [if_neg (by norm_num), if_pos rfl]
    unfold getInt16LED getUint16LED
    try dsimp only
    rw [hb0, hb1]
    rw [show (if 32768 ≤ (v % 65536).toNat % 256 + 256 * ((v % 65536).toNat / 256 % 256) then
          (((v % 65536).toNat % 256 + 256 * ((v % 65536).toNat / 256 % 256) : Nat) : Int) -
            65536
        else
          (((v % 65536).toNat % 256 + 256 * ((v % 65536).toNat / 256 % 256) : Nat) : Int)) =
        v from by split_ifs <;> omega]
    unfold normSample
    norm_num
  · have hb0 := hbytes 0 (by norm_num)
    have hb1 := hbytes 1 (by norm_num)
    have hb2 := hbytes 2 (by norm_num)
    rw [sampleBytes_getD 24 v 0 (by norm_num)] at hb0
    rw [sampleBytes_getD 24 v 1 (by norm_num)] at hb1
    rw [sampleBytes_getD 24 v 2 (by norm_num)] at hb2
    norm_num at hb0 hb1 hb2
    have hrange : -8388608 ≤ v ∧ v < 8388608 := by simpa [sampleInRange] using hv
    unfold decodeSampleD
    rw [if_neg (by norm_num), if_neg (by norm_num), if_pos rfl]
    try dsimp only
    rw [hb0, hb1, hb2]
    rw [show (if 8388608 ≤ (v % 16777216).toNat % 256 +
            256 * ((v % 16777216).toNat / 256 % 256) +
            65536 * ((v % 16777216).toNat / 65536 % 256) then
          (((v % 16777216).toNat % 256 + 256 * ((v % 16777216).toNat / 256 % 256) +
            65536 * ((v % 16777216).toNat / 65536 % 256) : Nat) : Int) - 16777216
        else
          (((v % 16777216).toNat % 256 + 256 * ((v % 16777216).toNat / 256 % 256) +
            65536 * ((v % 16777216).toNat / 65536 % 256) : Nat) : Int)) = v from by
      split_ifs <;> omega]
    unfold normSample
    norm_num
  · have hb0 := hbytes 0 (by norm_num)
    have hb1 := hbytes 1 (by norm_num)
    have hb2 := hbytes 2 (by norm_num)
    have hb3 := hbytes 3 (by norm_num)
    rw [sampleBytes_getD 32 v 0 (by norm_num)] at hb0
    rw [sampleBytes_getD 32 v 1 (by norm_num)] at hb1
    rw [sampleBytes_getD 32 v 2 (by norm_num)] at hb2
    rw [sampleBytes_getD 32 v 3 (by norm_num)] at hb3
    norm_num at hb0 hb1 hb2 hb3
    have hrange : -2147483648 ≤ v ∧ v < 2147483648 := by simpa [sampleInRange] using hv
    unfold decodeSampleD
    rw [if_neg (by norm_num), if_neg (by norm_num), if_neg (by norm_num)]
    unfold getInt32LED getUint32LED
    try dsimp only
    rw [hb0, hb1, hb2, hb3]
    rw [show (if 2147483648 ≤ (v % 4294967296).toNat % 256 +
            256 * ((v % 4294967296).toNat / 256 % 256) +
            65536 * ((v % 4294967296).toNat / 65536 % 256) +
            16777216 * ((v % 4294967296).toNat / 16777216 % 256) then
          (((v % 4294967296).toNat % 256 + 256 * ((v % 4294967296).toNat / 256 % 256) +
            65536 * ((v % 4294967296).toNat / 65536 % 256) +
            16777216 * ((v % 4294967296).toNat / 16777216 % 256) : Nat) : Int) - 4294967296
        else
          (((v % 4294967296).toNat % 256 + 256 * ((v % 4294967296).toNat / 256 % 256) +
            65536 * ((v % 4294967296).toNat / 65536 % 256) +
            16777216 * ((v % 4294967296).toNat / 16777216 % 256) : Nat) : Int)) = v from by
      split_ifs <;> omega]
    unfold normSample
    norm_num

/-- C8 (amended, for the standalone `parseWav`): decoding a well-formed
PCM WAV buffer — RIFF/WAVE container, 16-byte fmt chunk with code 1, a
supported bit depth, and a consistent data chunk of in-range stored
samples — reports exactly the encoded sample rate, channel count and
frame count, and every decoded sample equals the claim's normalization of
the stored integer, clamped into [-1, 1]. -/
theorem C8_roundtrip (rate channels bits frames : Nat) (sample : Nat → Nat → Int)
    (hch : 0 < channels) (hch2 : channels < 65536)
    (hrate : 0 < rate) (hrate2 : rate < 4294967296)
    (hbits : bits = 8 ∨ bits = 16 ∨ bits = 24 ∨ bits = 32)
    (hsize : frames * channels * (bits / 8) < 4294967296)
    (hsample : ∀ ch i, ch < channels → i < frames → sampleInRange bits (sample ch i)) :
    ∃ pw : ParsedWav, parseWav (mkWav rate channels bits frames sample) = .ok (some pw) ∧
      pw.sampleRate = rate ∧ pw.channels = channels ∧ pw.pcm.length = channels ∧
      (∀ ch, ch < channels → (pw.pcm.getD ch []).length = frames) ∧
      (∀ ch i, ch < channels → i < frames →
        (pw.pcm.getD ch []).getD i 0 = clampSample (normSample bits (sample ch i)) ∧
        -1 ≤ (pw.pcm.getD ch []).getD i 0 ∧ (pw.pcm.getD ch []).getD i 0 ≤ 1) := by
  have hb16 : bits < 65536 := by rcases hbits with h | h | h | h <;> omega
  have hbps : 0 < bits / 8 := by rcases hbits with h | h | h | h <;> subst h <;> norm_num
  obtain ⟨hlen, hriff, hwave, -, -, h20, h22, h24, h34, -, -, hdata⟩ :=
    mkWav_fields rate channels bits frames sample hch2 hrate2 hb16 hsize
  have hscan := mkWav_scan rate channels bits frames sample hch2 hrate2 hb16 hsize
  have hps := parseWav_success (mkWav rate channels bits frames sample) 20 16 44
    (frames * channels * (bits / 8))
    (by rw [hlen]; omega) hriff hwave hscan (by rw [hlen]; omega)
    h20
    (by rw [show (20 : Nat) + 2 = 22 from rfl, h22]; omega)
    (by rw [show (20 : Nat) + 4 = 24 from rfl, h24]; omega)
    (by rw [show (20 : Nat) + 14 = 34 from rfl, h34]; exact hbits)
  rw [show (20 : Nat) + 2 = 22 from rfl, show (20 : Nat) + 4 = 24 from rfl,
    show (20 : Nat) + 14 = 34 from rfl, h22, h24, h34] at hps
  have hframes : min (frames * channels * (bits / 8))
      ((mkWav rate channels bits frames sample).length - 44) / (channels * (bits / 8)) =
      frames := by
    rw [hlen, Nat.add_sub_cancel_left, min_self, Nat.mul_assoc]
    exact Nat.mul_div_cancel _ (Nat.mul_pos hch hbps)
  rw [hframes] at hps
  refine ⟨_, hps, rfl, rfl, ?_, ?_, ?_⟩
  · simp
  · intro ch hchlt
    simp [List.getD, List.getElem?_map, List.getElem?_range hchlt]
  · intro ch i hchlt hilt
    have hsampleEq :
        ((({ sampleRate := rate, channels := channels,
             pcm := (List.range channels).map fun ch =>
               (List.range frames).map fun i =>
                 decodeSampleD (mkWav rate channels bits frames sample)
                   (44 + (i * channels + ch) * (bits / 8)) bits } : ParsedWav).pcm.getD
          ch []).getD i 0) =
        decodeSampleD (mkWav rate channels bits frames sample)
          (44 + (i * channels + ch) * (bits / 8)) bits := by
      simp [List.getD, List.getElem?_map, List.getElem?_range hchlt, List.getElem?_range hilt]
    rw [hsampleEq]
    have hdec := decodeSample_of_bytes (mkWav rate channels bits frames sample)
      (44 + (i * channels + ch) * (bits / 8)) bits (sample ch i) hbits
      (hsample ch i hchlt hilt) ?_
    · exact ⟨hdec, hdec ▸ (clampSample_mem _).1, hdec ▸ (clampSample_mem _).2⟩
    · intro j hj
      rw [show 44 + (i * channels + ch) * (bits / 8) + j =
          44 + ((i * channels + ch) * (bits / 8) + j) from by omega]
      rw [hdata ((i * channels + ch) * (bits / 8) + j)]
      unfold getUint8D
      rw [show (i * channels + ch) * (bits / 8) + j =
          i * (channels * (bits / 8)) + (ch * (bits / 8) + j) from by ring]
      rw [flatMap_getD (List.range frames) _ (channels * (bits / 8))
        (fun a _ => by
          rw [length_flatMap_const _ _ (bits / 8) (fun x _ => sampleBytes_length bits _)]
          simp [List.length_range])
        i (ch * (bits / 8) + j) (by simpa using hilt)
        (by
          calc ch * (bits / 8) + j < ch * (bits / 8) + bits / 8 := by omega
            _ = (ch + 1) * (bits / 8) := by ring
            _ ≤ channels * (bits / 8) := Nat.mul_le_mul_right _ hchlt)]
      rw [List.get_range]
      rw [flatMap_getD (List.range channels) _ (bits / 8)
        (fun x _ => sampleBytes_length bits _) ch j (by simpa using hchlt) hj]
      rw [List.get_range]

/-- C8 witness: the round-trip theorem at the concrete buffer
`mkWav 8000 1 16 1 (fun _ _ => -32768)`. -/
theorem C8_witness :
    ∃ pw : ParsedWav, parseWav (mkWav 8000 1 16 1 fun _ _ => -32768) = .ok (some pw) ∧
      pw.sampleRate = 8000 ∧ pw.channels = 1 ∧ pw.pcm.length = 1 ∧
      (∀ ch, ch < 1 → (pw.pcm.getD ch []).length = 1) ∧
      (∀ ch i, ch < 1 → i < 1 →
        (pw.pcm.getD ch []).getD i 0 = clampSample (normSample 16 (-32768)) ∧
        -1 ≤ (pw.pcm.getD ch []).getD i 0 ∧ (pw.pcm.getD ch []).getD i 0 ≤ 1) :=
  C8_roundtrip 8000 1 16 1 (fun _ _ => -32768) (by decide) (by decide) (by decide)
    (by decide) (by decide) (by decide) (fun ch i _ _ => by norm_num [sampleInRange])

/-- C8 counterexample: `wav8Mono` is the well-formed 8-bit PCM buffer
`mkWav 8000 1 8 1 (fun _ _ => 200)`; the standalone `parseWav` decodes it
to the normalized sample `(200 - 128)/128 = 9/16`, but
`AudioAnalyser.parseWav` (also cited by the claim) returns `false` on it:
it decodes no bit depth other than 16, so the round-trip claim fails for
the 8-bit, 24-bit and 32-bit depths on that implementation. -/
theorem C8_counterexample :
    mkWav 8000 1 8 1 (fun _ _ => 200) = wav8Mono ∧
    (∃ pw : ParsedWav, parseWav wav8Mono = .ok (some pw) ∧
      pw.sampleRate = 8000 ∧ pw.channels = 1 ∧ pw.pcm = [[9/16]]) ∧
    (AudioAnalyser.parseWav AudioAnalyser.initial wav8Mono).2 = .done false := by
  refine ⟨by decide,
    ⟨{ sampleRate := 8000, channels := 1, pcm := [[9/16]] }, ?_, rfl, rfl, rfl⟩, ?_⟩
  · simp +decide [parseWav, scanChunks, wav8Mono, readFourCC, riffTag, waveTag, fmtTag,
      dataTag, getUint8D, getUint16LED, getUint32LED, getUint16LE, getUint32LE,
      getInt16LED, decodeSampleD, clampSample, List.getD, List.range_succ, max_def, min_def]
    norm_num
  · simp +decide [AudioAnalyser.parseWav, AudioAnalyser.parseChunks, wav8Mono,
      getUint32BED, getUint16LED, getUint32LED, getUint8D, List.getD]
